import Mathlib

/-!
Verification of the `wav` package of the beep repository: the WAV header
codec, the silence/activity detector (`WakeUp`) and the perpetual encoder
loop (`StartWithDetect`), shallowly embedded from `src/wav/encode.go`.

Sample amplitudes (Go `float64`) are embedded as rationals: the code only
takes absolute values and compares them, operations on which floating
point agrees with exact arithmetic for representable inputs.  Go `int`
counters are embedded as `ℤ`, byte counts as `ℕ`, byte values as `ℕ`
(each `< 256` by construction).
-/

namespace Beep

set_option maxRecDepth 16384

/-- A sample block: `[][2]float64` in Go, an ordered list of stereo
(left, right) amplitude pairs. -/
abbrev Block := List (ℚ × ℚ)

/-- Modelled from the spec: `beep.Format` (defined at the repository root,
outside `src/`): channel count, sample rate and bytes-per-sample
precision (§6 Configuration). -/
structure Format where
  numChannels : ℤ
  sampleRate : ℤ
  precision : ℤ
deriving DecidableEq

/-- Modelled from the spec: `beep.Format.Width`, the number of bytes per
frame; §6 gives block align = channels × precisionBytes. -/
def Format.width (f : Format) : ℕ := (f.numChannels * f.precision).toNat

/-- Modelled from the spec: `beep.Format.EncodeUnsigned` /
`beep.Format.EncodeSigned` live at the repository root, outside `src/`.
The spec (§2, §6) fixes only what the claims use: each frame is converted
to `numChannels × precision` interleaved PCM bytes (unsigned for 1-byte
precision, signed otherwise); the quantization of the byte values is not
given, so they are modelled as zero bytes. -/
def Format.pcmFrame (f : Format) (_s : ℚ × ℚ) : List ℕ :=
  List.replicate f.width 0

/-- Two's-complement wrap of a Go `int32` cast. -/
def int32c (v : ℤ) : ℤ := (v + 2147483648) % 4294967296 - 2147483648

/-- Two's-complement wrap of a Go `int16` cast. -/
def int16c (v : ℤ) : ℤ := (v + 32768) % 65536 - 32768

/-- Little-endian serialization of a 16-bit field (`binary.Write` with
`binary.LittleEndian` on an `int16`). -/
def le16 (v : ℤ) : List ℕ :=
  [(v % 65536).toNat % 256, (v % 65536).toNat / 256]

/-- Little-endian serialization of a 32-bit field (`binary.Write` with
`binary.LittleEndian` on an `int32`). -/
def le32 (v : ℤ) : List ℕ :=
  [(v % 4294967296).toNat % 256,
   (v % 4294967296).toNat / 256 % 256,
   (v % 4294967296).toNat / 65536 % 256,
   (v % 4294967296).toNat / 16777216 % 256]

/-- Modelled from the spec: the `header` record of the `wav` package is
referenced by `src/wav/encode.go` but defined in a file outside `src/`;
§6 gives its exact 44-byte little-endian layout, which this structure and
`Header.bytes` follow. -/
structure Header where
  riffMark : List ℕ
  fileSize : ℤ
  waveMark : List ℕ
  fmtMark : List ℕ
  formatSize : ℤ
  formatType : ℤ
  numChans : ℤ
  sampleRate : ℤ
  byteRate : ℤ
  bytesPerFrame : ℤ
  bitsPerSample : ℤ
  dataMark : List ℕ
  dataSize : ℤ
deriving DecidableEq

/-- Serialization `binary.Write(w, binary.LittleEndian, &h)`: the header's 44-byte
layout, field by field in declaration order. -/
def Header.bytes (h : Header) : List ℕ :=
  h.riffMark ++ le32 h.fileSize ++ h.waveMark ++ h.fmtMark ++
  le32 h.formatSize ++ le16 h.formatType ++ le16 h.numChans ++
  le32 h.sampleRate ++ le32 h.byteRate ++ le16 h.bytesPerFrame ++
  le16 h.bitsPerSample ++ h.dataMark ++ le32 h.dataSize

/-- Embedding of `EncodePerpetum.GetHeaders` (and the identical header literal at the
top of `Encode`/`EncodeBuff`): placeholder sizes are `-1` until
finalization. -/
def GetHeaders (f : Format) : Header where
  riffMark := [82, 73, 70, 70]
  fileSize := -1
  waveMark := [87, 65, 86, 69]
  fmtMark := [102, 109, 116, 32]
  formatSize := 16
  formatType := 1
  numChans := int16c f.numChannels
  sampleRate := int32c f.sampleRate
  byteRate := int32c (f.sampleRate * f.numChannels * f.precision)
  bytesPerFrame := int16c (f.numChannels * f.precision)
  bitsPerSample := int16c (int16c f.precision * 8)
  dataMark := [100, 97, 116, 97]
  dataSize := -1

/-- The header after `FileSize = int32(44 + written); DataSize =
int32(written)` (the finalization step of `Encode`, `EncodeBuff`,
`FinalizeDataBuff` and `FinalizeDataFile`). -/
def finalHeaders (f : Format) (written : ℕ) : Header :=
  { GetHeaders f with
      fileSize := int32c (44 + written)
      dataSize := int32c written }

/-- Reparse a serialized little-endian signed 32-bit field. -/
def parse32 : List ℕ → ℤ
  | [b0, b1, b2, b3] =>
    let n := b0 + 256 * b1 + 65536 * b2 + 16777216 * b3
    if n < 2147483648 then (n : ℤ) else (n : ℤ) - 4294967296
  | _ => 0

/-- The RIFF file-size field of a serialized WAV byte stream (bytes 4–7). -/
def fileSizeField (bs : List ℕ) : ℤ := parse32 ((bs.drop 4).take 4)

/-- The data-size field of a serialized WAV byte stream (bytes 40–43). -/
def dataSizeField (bs : List ℕ) : ℤ := parse32 ((bs.drop 40).take 4)

/-- Embedding of `math.Abs` on the rational model of `float64`. -/
def mabs (q : ℚ) : ℚ := if q < 0 then -q else q

/-- Embedding of `GetMaxValSample`: folds over the block comparing `math.Abs(s[0])`
against the accumulator but assigns the raw `s[0]` (exactly as the Go
code does, including the missing absolute value on assignment). -/
def GetMaxValSample (snd_data : Block) : ℚ :=
  snd_data.foldl (fun max_sample s => if mabs s.1 > max_sample then s.1 else max_sample) 0

/-- Embedding of `IsSilent`: the block is silent when `GetMaxValSample` is below the
threshold; `logmin`/`logmax` only gate debug printing in the source. -/
def IsSilent (snd_data : Block) (threshold : ℚ) (_logmin _logmax : Bool) : Bool :=
  decide (GetMaxValSample snd_data < threshold)

/-- The `WakeUp` detector state.  `bottom_memory` is the fixed
`[31][][2]float64` rolling memory, kept as a list whose length is 31 in
every state the code constructs; empty slots are the zero value `nil`,
embedded as `[]`. -/
structure WakeUp where
  tts : ℤ
  fake_break : ℤ
  fake_break_limit : ℤ
  nsamples_rec : ℤ
  record_mode : Bool
  back_to_silence : ℤ
  threshold : ℚ
  th_on : ℚ
  th_off : ℚ
  autobalance : Bool
  bottom_memory : List Block
  complete_samples : List Block
deriving DecidableEq

/-- Embedding of `InitWakeUp`. -/
def InitWakeUp (tts : ℤ) (th_on th_off : ℚ) (autobalance : Bool) : WakeUp where
  tts := tts
  fake_break := 0
  fake_break_limit := 2
  nsamples_rec := 0
  record_mode := false
  back_to_silence := 0
  threshold := th_off
  th_on := th_on
  th_off := th_off
  autobalance := autobalance
  bottom_memory := List.replicate 31 []
  complete_samples := []

/-- Embedding of `WakeUp.RefreshMem`: returns the rolling memory and resets it to the
zero value (31 `nil` slots). -/
def WakeUp.RefreshMem (wu : WakeUp) : List Block × WakeUp :=
  (wu.bottom_memory, { wu with bottom_memory := List.replicate 31 [] })

/-- Embedding of `WakeUp.BackupSamples`: shift every slot down by one (evicting slot 0,
the oldest) and store the new block in slot 30.  On the length-31 lists
the code maintains this is exactly the Go loop. -/
def WakeUp.BackupSamples (wu : WakeUp) (samples : Block) (_nsamples : ℕ) : WakeUp :=
  { wu with bottom_memory := wu.bottom_memory.drop 1 ++ [samples] }

/-- Embedding of `WakeUp.Check`: the detector transition.  Returns the signal string and
the updated state (the Go method mutates the receiver).  The trailing
`return "complete"` of the Go function is unreachable (the switch covers
`record_mode` and `!record_mode`). -/
def WakeUp.Check (wu : WakeUp) (samples : Block) (nsamples : ℕ) : String × WakeUp :=
  let current_svar := IsSilent samples wu.threshold false false
  if wu.record_mode then
    if current_svar then
      if wu.back_to_silence > wu.tts then
        let wu1 := { wu with record_mode := false, back_to_silence := 0 }
        if wu1.fake_break < wu1.fake_break_limit then
          ("drop", wu1)
        else
          ("complete", { wu1 with threshold := wu1.th_off })
      else
        ("continue", { wu with back_to_silence := wu.back_to_silence + 1 })
    else
      ("continue", { wu with back_to_silence := 0, fake_break := wu.fake_break + 1 })
  else
    if !current_svar then
      ("init", { wu with record_mode := true, threshold := wu.th_on })
    else
      ("", wu.BackupSamples samples nsamples)

/-- Embedding of `EncodePerpetum.WriteSamples`: encodes `samples[:nsamples]` and
appends the bytes to the tail buffer.  `none` models the `panic` on an
invalid precision and the Go slice-bounds panic when `nsamples` exceeds
the block (or the fixed 512-frame staging buffer); writing to the
in-memory `bufio.Writer` over a `bytes.Buffer` cannot fail, so on
success the result is `(true, written + nn, appended bytes)`. -/
def WriteSamples (f : Format) (written : ℕ) (samples : Block) (nsamples : ℕ) :
    Option (Bool × ℕ × List ℕ) :=
  if f.precision = 1 ∨ f.precision = 2 ∨ f.precision = 3 then
    if nsamples ≤ samples.length ∧ nsamples ≤ 512 then
      let bytes := (samples.take nsamples).flatMap f.pcmFrame
      some (true, written + bytes.length, bytes)
    else none
  else none

/-- One capture segment's output buffer, tracked as the sequence of
`WriteSamples` calls `(block, nsamples)` that filled it and the running
`twritten` byte count. -/
structure Segment where
  writes : List (Block × ℕ)
  twritten : ℕ
deriving DecidableEq

/-- The PCM payload bytes of a segment's writes. -/
def payloadBytes (f : Format) (writes : List (Block × ℕ)) : List ℕ :=
  writes.flatMap (fun p => (p.1.take p.2).flatMap f.pcmFrame)

/-- The byte stream published for a completed buffer: `NewBuff` writes the
placeholder header, the payload is appended through the `bufio.Writer`,
and `FinalizeDataBuff` flushes and then `binary.Write`s the corrected
header — which a `bytes.Buffer` appends at the end (it cannot seek). -/
def FinalizeDataBuffBytes (f : Format) (payload : List ℕ) (written : ℕ) : List ℕ :=
  (GetHeaders f).bytes ++ payload ++ (finalHeaders f written).bytes

/-- The byte stream a published `Segment` denotes. -/
def Segment.bytes (f : Format) (seg : Segment) : List ℕ :=
  FinalizeDataBuffBytes f (payloadBytes f seg.writes) seg.twritten

/-- State of the `StartWithDetect` worker: detector state, the active
buffer (`long_buff`/`tbw`/`twritten`) and the buffers published so far on
`rbuff_ch`. -/
structure EPState where
  wu : WakeUp
  seg : Segment
  published : List Segment
deriving DecidableEq

/-- Per-iteration observable output: the detector signal acted on, and the
rolling-memory blocks drained by `RefreshMem` when the signal was
`"init"`. -/
structure StepOut where
  signal : String
  preroll : List Block
deriving DecidableEq

/-- The state at the top of `StartWithDetect`: fresh buffer from
`NewBuff` (zero payload written) and `InitWakeUp(wakeup_time,
min_vol_start_rec, max_vol_stop_rec, autobalance_start_stop_rec)`. -/
def epInit (tts : ℤ) (th_on th_off : ℚ) (autobalance : Bool) : EPState where
  wu := InitWakeUp tts th_on th_off autobalance
  seg := ⟨[], 0⟩
  published := []

/-- Threads `twritten` through a sequence of `WriteSamples` calls (the
pre-roll drain loop of the `"init"` branch followed by the current
block). -/
def writeFold (f : Format) : List (Block × ℕ) → ℕ → Option ℕ
  | [], tw => some tw
  | (s, n) :: r, tw =>
    match WriteSamples f tw s n with
    | none => none
    | some (_, tw1, _) => writeFold f r tw1

/-- One iteration of the `StartWithDetect` loop body on a successfully
pulled block: run `Check`, then act on the signal exactly as the Go
`switch` does.  `none` models a `WriteSamples` panic.  `complete_samples`
bookkeeping (the `autobalance_start_stop_rec` debug path) is carried
faithfully: the `"init"` branch appends the *current* block once per
drained slot and once more for the current write. -/
def epStep (f : Format) (st : EPState) (inp : Block × ℕ) : Option (EPState × StepOut) :=
  let samples := inp.1
  let nsamples := inp.2
  let r := st.wu.Check samples nsamples
  let res := r.1
  let wu1 := r.2
  if res = "complete" then
    match WriteSamples f st.seg.twritten samples nsamples with
    | none => none
    | some (_, tw, _) =>
      let wu2 := if wu1.autobalance then { wu1 with complete_samples := [] } else wu1
      some ({ wu := wu2, seg := ⟨[], 0⟩,
              published := st.published ++ [⟨st.seg.writes ++ [(samples, nsamples)], tw⟩] },
            ⟨res, []⟩)
  else if res = "init" then
    let rm := wu1.RefreshMem
    let lsamples := rm.1
    let wu2 := rm.2
    let ws := lsamples.map (fun ss => (ss, ss.length)) ++ [(samples, nsamples)]
    match writeFold f ws st.seg.twritten with
    | none => none
    | some tw =>
      let wu3 :=
        if wu2.autobalance then
          { wu2 with complete_samples :=
              wu2.complete_samples ++ List.replicate lsamples.length samples ++ [samples] }
        else wu2
      some ({ wu := wu3, seg := ⟨st.seg.writes ++ ws, tw⟩, published := st.published },
            ⟨res, lsamples⟩)
  else if res = "drop" then
    some ({ wu := wu1, seg := ⟨[], 0⟩, published := st.published }, ⟨res, []⟩)
  else if res = "continue" then
    match WriteSamples f st.seg.twritten samples nsamples with
    | none => none
    | some (_, tw, _) =>
      let wu2 :=
        if wu1.autobalance then
          { wu1 with complete_samples := wu1.complete_samples ++ [samples] }
        else wu1
      some ({ wu := wu2, seg := ⟨st.seg.writes ++ [(samples, nsamples)], tw⟩,
              published := st.published }, ⟨res, []⟩)
  else
    some ({ wu := wu1, seg := st.seg, published := st.published }, ⟨res, []⟩)

/-- The `StartWithDetect` pull loop over the blocks the sample source
yields before reporting exhaustion (`ReadSamples` returning `nil`
terminates the loop; in-flight buffer state is simply abandoned). -/
def runEP (f : Format) (st : EPState) : List (Block × ℕ) → Option (EPState × List StepOut)
  | [] => some (st, [])
  | inp :: rest =>
    match epStep f st inp with
    | none => none
    | some (st1, o) =>
      match runEP f st1 rest with
      | none => none
      | some (stf, os) => some (stf, o :: os)

/-- The per-block loop body of the one-shot `Encode`/`EncodeBuff`:
payload bytes appended in stream order; `none` models the panics. -/
def encodeLoop (f : Format) : List (Block × ℕ) → Option (List ℕ)
  | [] => some []
  | (samples, n) :: rest =>
    if f.precision = 1 ∨ f.precision = 2 ∨ f.precision = 3 then
      if n ≤ samples.length ∧ n ≤ 512 then
        match encodeLoop f rest with
        | none => none
        | some p => some ((samples.take n).flatMap f.pcmFrame ++ p)
      else none
    else none

/-- Embedding of `Encode` on an `io.WriteSeeker`: after the loop it seeks to offset 0
and rewrites the header, so the produced stream is the finalized header
followed by the payload. -/
def Encode (f : Format) (input : List (Block × ℕ)) : Except String (List ℕ) :=
  if f.numChannels ≤ 0 then
    .error "wav: invalid number of channels (less than 1)"
  else if ¬(f.precision = 1 ∨ f.precision = 2 ∨ f.precision = 3) then
    .error "wav: unsupported precision, 1, 2 or 3 is supported"
  else
    match encodeLoop f input with
    | none => .error "panic"
    | some payload => .ok ((finalHeaders f payload.length).bytes ++ payload)

/-- Embedding of `EncodeBuff` on a plain `io.Writer`: the seek calls are commented out,
so the corrected header is appended after the payload while the leading
header keeps its placeholder sizes. -/
def EncodeBuff (f : Format) (input : List (Block × ℕ)) : Except String (List ℕ) :=
  if f.numChannels ≤ 0 then
    .error "wav: invalid number of channels (less than 1)"
  else if ¬(f.precision = 1 ∨ f.precision = 2 ∨ f.precision = 3) then
    .error "wav: unsupported precision, 1, 2 or 3 is supported"
  else
    match encodeLoop f input with
    | none => .error "panic"
    | some payload =>
      .ok ((GetHeaders f).bytes ++ payload ++ (finalHeaders f payload.length).bytes)

/-- The spec's block classification quantity (§4.2, §8): the peak
absolute amplitude over the left channel.  Stated from the spec's words,
for comparison against `GetMaxValSample`. -/
def specPeakAbsLeft (snd_data : Block) : ℚ :=
  snd_data.foldl (fun m s => if m < mabs s.1 then mabs s.1 else m) 0

/-- Repeated `BackupSamples` (the only rolling-memory writer), as
performed while idle. -/
def memFold (wu : WakeUp) (bs : List Block) : WakeUp :=
  bs.foldl (fun w b => w.BackupSamples b b.length) wu

/-- The detector state after a sequence of `Check` calls. -/
def detRun (wu : WakeUp) (bs : List (Block × ℕ)) : WakeUp :=
  bs.foldl (fun w p => (w.Check p.1 p.2).2) wu

/-- Counts the blocks of a trace that are processed in recording mode and
are not silent — the spec's "noisy blocks seen since the last reset"
(`fake_break` is reset only by `InitWakeUp`). -/
def noisyRecCount : WakeUp → List (Block × ℕ) → ℕ
  | _, [] => 0
  | wu, p :: r =>
    (if wu.record_mode = true ∧ IsSilent p.1 wu.threshold false false = false then 1 else 0)
      + noisyRecCount (wu.Check p.1 p.2).2 r

/-- Detector states reachable from a given initial state by `Check`
calls. -/
inductive Reach (wu0 : WakeUp) : WakeUp → Prop
  | refl : Reach wu0 wu0
  | step (b : Block) (n : ℕ) {wu : WakeUp} (h : Reach wu0 wu) :
      Reach wu0 ((wu.Check b n).2)

/-- The contents of `ep.stop_ch` modelled as a pending-signal flag.
`StartWithDetect` contains no receive from `ep.stop_ch` (nor from
`ep.ask_ch`), so the loop body is the same function whatever the flag
is: the flag parameter is simply unused, exactly as the field is in the
source. -/
def epStepWithStop (f : Format) (_stopPending : Bool) (st : EPState) (inp : Block × ℕ) :
    Option (EPState × StepOut) :=
  epStep f st inp

/-- The configuration of the spec's §8 scenario: channels=1, precision=2,
sampleRate=16000. -/
def fmt4 : Format := ⟨1, 16000, 2⟩

/-- A 512-frame all-zero (silent) block. -/
def sBlk4 : Block := List.replicate 512 ((0 : ℚ), (0 : ℚ))

/-- A 512-frame loud block (left amplitude 0.5). -/
def lBlk4 : Block := List.replicate 512 (mkRat 1 2, (0 : ℚ))

/-- The §8 scenario input: 40 silent blocks, 3 loud blocks, 10 silent
blocks, each of 512 frames. -/
def scenario4 : List (Block × ℕ) :=
  List.replicate 40 (sBlk4, 512) ++ List.replicate 3 (lBlk4, 512) ++
    List.replicate 10 (sBlk4, 512)

/-- The writes the code actually makes into the single published buffer of
the §8 scenario: 31 pre-roll silent blocks, 3 loud blocks, and the first
7 trailing silent blocks (the 7th is appended by the `"complete"`
branch itself). -/
def expected4 : List (Block × ℕ) :=
  List.replicate 31 (sBlk4, 512) ++ List.replicate 3 (lBlk4, 512) ++
    List.replicate 7 (sBlk4, 512)

/-- A one-frame silent block, for small concrete runs. -/
def sb1 : Block := [((0 : ℚ), (0 : ℚ))]

/-- A one-frame loud block, for small concrete runs. -/
def lb1 : Block := [((1 : ℚ), (0 : ℚ))]

/-- A small default used only to extract computed run results. -/
def dflt : EPState × List StepOut := (epInit 0 0 0 false, [])

/-- The detector state after feeding one loud then two silent one-frame
blocks from `InitWakeUp 0 0.02 0.05 false` — the third `Check` returns
`"drop"`. -/
def wuAfterDrop : WakeUp :=
  (((((InitWakeUp 0 (mkRat 1 50) (mkRat 1 20) false).Check lb1 1).2.Check sb1 1).2).Check
    sb1 1).2

/-- A recording detector state whose silence timeout has expired:
`InitWakeUp 0 0.02 0.05 false` after one loud and one silent one-frame
block (recording, `back_to_silence = 1 > tts = 0`, `fake_break = 0`). -/
def wuT : WakeUp :=
  ((((InitWakeUp 0 (mkRat 1 50) (mkRat 1 20) false).Check lb1 1).2).Check sb1 1).2

/-- A two-block input that ends with the source exhausted mid-recording. -/
def c9bs : List (Block × ℕ) := [(lb1, 1), (sb1, 1)]

/-- The run of `c9bs` (computed; default never used). -/
def c9out : EPState × List StepOut :=
  (runEP fmt4 (epInit 5 (mkRat 1 50) (mkRat 1 20) false) c9bs).getD dflt

/-- The run of a loud block followed by two silent blocks with
`wakeup_time = 0`: the segment is judged spurious and dropped
(computed; default never used). -/
def c3out : EPState × List StepOut :=
  (runEP fmt4 (epInit 0 (mkRat 1 50) (mkRat 1 20) false)
    [(lb1, 1), (sb1, 1), (sb1, 1)]).getD dflt

/-- The worker state after pulling one loud block: an active recording
with bytes already written. -/
def c8st1 : EPState :=
  ((runEP fmt4 (epInit 5 (mkRat 1 50) (mkRat 1 20) false) [(lb1, 1)]).getD dflt).1

/-- Three further silent blocks fed to `c8st1`. -/
def c8bs : List (Block × ℕ) := List.replicate 3 (sb1, 1)

/-- The run of `c8bs` from `c8st1` (computed; default never used). -/
def c8out : EPState × List StepOut := (runEP fmt4 c8st1 c8bs).getD dflt

/-- Non-`nil` block test (empty slots of the rolling memory are `nil`). -/
def neNil (b : Block) : Bool := decide (b ≠ [])

/-- All rolling-memory blocks drained as pre-roll over a trace, with the
never-filled `nil` slots (which contribute no bytes) removed. -/
def drains (os : List StepOut) : List Block :=
  ((os.map StepOut.preroll).flatten).filter neNil

/-- A second one-frame silent block, distinct from `sb1`. -/
def sb2 : Block := [((0 : ℚ), (1 : ℚ))]

/-- Two distinct silent blocks then a loud one. -/
def c7bs : List (Block × ℕ) := [(sb1, 1), (sb2, 1), (lb1, 1)]

/-- The run of `c7bs` (computed; default never used). -/
def c7out : EPState × List StepOut :=
  (runEP fmt4 (epInit 5 (mkRat 1 50) (mkRat 1 20) false) c7bs).getD dflt

/-- The worker state after one idle silent block. -/
def c7st : EPState :=
  ((runEP fmt4 (epInit 5 (mkRat 1 50) (mkRat 1 20) false) [(sb1, 1)]).getD dflt).1

/-- A small default step result used only to extract computed values. -/
def dflt2 : EPState × StepOut := (epInit 0 0 0 false, ⟨"", []⟩)

/-- The onset step from `c7st` on a loud block (computed; default never
used). -/
def c7step : EPState × StepOut := (epStep fmt4 c7st (lb1, 1)).getD dflt2

/-- Iterates `k` idle-silent loop iterations: each backs the block up into the
rolling memory and leaves the rest of the state unchanged. -/
def idleIter : ℕ → EPState → Block → ℕ → EPState
  | 0, st, _, _ => st
  | k+1, st, b, n => idleIter k { st with wu := st.wu.BackupSamples b n } b n

/-- Iterates `k` recording-silent `"continue"` iterations on the scenario's silent
block: each increments the consecutive-silence counter and appends the
block to the active buffer. -/
def recSilIter : ℕ → EPState → EPState
  | 0, st => st
  | k+1, st => recSilIter k
      { st with
          wu := { st.wu with back_to_silence := st.wu.back_to_silence + 1 },
          seg := ⟨st.seg.writes ++ [(sBlk4, 512)], st.seg.twritten + 1024⟩ }

/-! ## Theorems -/

lemma foldl_shift_eq (bs : List Block) :
    ∀ m : List Block, m ≠ [] →
      bs.foldl (fun m b => m.drop 1 ++ [b]) m = (m ++ bs).drop bs.length := by
  induction bs with
  | nil => intro m _; simp
  | cons b r ih =>
    intro m hm
    rcases m with _ | ⟨x, t⟩
    · exact absurd rfl hm
    · have h1 : (x :: t).drop 1 ++ [b] = t ++ [b] := by simp
      calc (b :: r).foldl (fun m b => m.drop 1 ++ [b]) (x :: t)
          = r.foldl (fun m b => m.drop 1 ++ [b]) (t ++ [b]) := by simp
        _ = ((t ++ [b]) ++ r).drop r.length := ih (t ++ [b]) (by simp)
        _ = ((x :: t) ++ b :: r).drop (b :: r).length := by
            simp [List.append_assoc]

lemma memFold_bottom (bs : List Block) :
    ∀ wu : WakeUp, (memFold wu bs).bottom_memory
      = bs.foldl (fun m b => m.drop 1 ++ [b]) wu.bottom_memory := by
  induction bs with
  | nil => intro wu; simp [memFold]
  | cons b r ih =>
    intro wu
    simpa [memFold, WakeUp.BackupSamples] using ih (wu.BackupSamples b b.length)

/-- C6.  The rolling memory is a 31-slot FIFO: after any sequence of
idle-time pushes from the initial state, the memory is exactly the last
31 pushed blocks (padded in front with the `nil` slots not yet filled),
i.e. `(31 empty slots ++ pushes) minus the first `pushes.length`
entries — so every overflow evicts the oldest stored block — and at every
intermediate moment the memory holds exactly its 31 slots. -/
theorem c6_rolling_memory_fifo (tts : ℤ) (a b : ℚ) (ab : Bool) (bs : List Block) :
    (memFold (InitWakeUp tts a b ab) bs).bottom_memory
      = (List.replicate 31 ([] : Block) ++ bs).drop bs.length
    ∧ ∀ n : ℕ,
        ((memFold (InitWakeUp tts a b ab) (bs.take n)).bottom_memory).length = 31 := by
  constructor
  · rw [memFold_bottom]
    exact foldl_shift_eq bs (List.replicate 31 []) (by simp)
  · intro n
    rw [memFold_bottom]
    have hmem : (InitWakeUp tts a b ab).bottom_memory = List.replicate 31 [] := rfl
    rw [hmem, foldl_shift_eq (bs.take n) (List.replicate 31 []) (by simp)]
    simp [List.length_drop]
    omega

/-- C5.  The code's block classifier at the failing input: the block
`[(-0.5, 0)]` has peak absolute left amplitude `0.5 ≥ 0.02`, so per the
spec it is not silent; but `GetMaxValSample` assigns the raw sample after
comparing its absolute value, returns `-0.5`, and `IsSilent` classifies
the block as silent at threshold `0.02`. -/
theorem c5_negative_peak_bug :
    GetMaxValSample [(-(mkRat 1 2), 0)] = -(mkRat 1 2)
    ∧ IsSilent [(-(mkRat 1 2), 0)] (mkRat 1 50) false false = true
    ∧ specPeakAbsLeft [(-(mkRat 1 2), 0)] = mkRat 1 2
    ∧ ¬(mkRat 1 2 < mkRat 1 50) := by
  refine ⟨by decide, by decide, by decide, by decide⟩

/-- C10.  `WriteSamples` on a `nil` block with `nsamples = 0` (as the
pre-roll drain performs for every unfilled slot): it appends no bytes,
reports success, and leaves the written count unchanged; consequently a
drain loop over any number of empty slots threads `twritten` through
unchanged. -/
theorem c10_nil_block_write (f : Format) (w : ℕ)
    (hp : f.precision = 1 ∨ f.precision = 2 ∨ f.precision = 3) :
    WriteSamples f w ([] : Block) 0 = some (true, w, [])
    ∧ ∀ (k : ℕ) (tw : ℕ),
        writeFold f (List.replicate k (([] : Block), 0)) tw = some tw := by
  have hws : ∀ w' : ℕ, WriteSamples f w' ([] : Block) 0 = some (true, w', []) := by
    intro w'
    simp [WriteSamples, hp]
  refine ⟨hws w, ?_⟩
  intro k
  induction k with
  | zero => intro tw; simp [writeFold]
  | succ m ih =>
    intro tw
    rw [List.replicate_succ]
    simp only [writeFold, hws tw]
    exact ih tw

/-- C10 witness: a concrete nil-slot write and a concrete 2-slot drain. -/
theorem c10_nil_block_write_witness :
    (fmt4.precision = 1 ∨ fmt4.precision = 2 ∨ fmt4.precision = 3)
    ∧ WriteSamples fmt4 3 ([] : Block) 0 = some (true, 3, [])
    ∧ writeFold fmt4 (List.replicate 2 (([] : Block), 0)) 7 = some 7 := by
  have hp : fmt4.precision = 1 ∨ fmt4.precision = 2 ∨ fmt4.precision = 3 := by decide
  exact ⟨hp, (c10_nil_block_write fmt4 3 hp).1, (c10_nil_block_write fmt4 7 hp).2 2 7⟩

lemma Check_idle_silent {wu : WakeUp} {b : Block} {n : ℕ}
    (hr : wu.record_mode = false)
    (hs : IsSilent b wu.threshold false false = true) :
    wu.Check b n = ("", wu.BackupSamples b n) := by
  simp [WakeUp.Check, hr, hs]

lemma Check_idle_loud {wu : WakeUp} {b : Block} {n : ℕ}
    (hr : wu.record_mode = false)
    (hs : IsSilent b wu.threshold false false = false) :
    wu.Check b n = ("init", { wu with record_mode := true, threshold := wu.th_on }) := by
  simp [WakeUp.Check, hr, hs]

lemma Check_rec_nonsilent {wu : WakeUp} {b : Block} {n : ℕ}
    (hr : wu.record_mode = true)
    (hs : IsSilent b wu.threshold false false = false) :
    wu.Check b n = ("continue", { wu with back_to_silence := 0, fake_break := wu.fake_break + 1 }) := by
  simp [WakeUp.Check, hr, hs]

lemma Check_rec_silent_cont {wu : WakeUp} {b : Block} {n : ℕ}
    (hr : wu.record_mode = true)
    (hs : IsSilent b wu.threshold false false = true)
    (hb : ¬wu.back_to_silence > wu.tts) :
    wu.Check b n = ("continue", { wu with back_to_silence := wu.back_to_silence + 1 }) := by
  simp [WakeUp.Check, hr, hs, hb]

lemma Check_rec_silent_drop {wu : WakeUp} {b : Block} {n : ℕ}
    (hr : wu.record_mode = true)
    (hs : IsSilent b wu.threshold false false = true)
    (hb : wu.back_to_silence > wu.tts)
    (hf : wu.fake_break < wu.fake_break_limit) :
    wu.Check b n = ("drop", { wu with record_mode := false, back_to_silence := 0 }) := by
  simp [WakeUp.Check, hr, hs, hb, hf]

lemma Check_rec_silent_complete {wu : WakeUp} {b : Block} {n : ℕ}
    (hr : wu.record_mode = true)
    (hs : IsSilent b wu.threshold false false = true)
    (hb : wu.back_to_silence > wu.tts)
    (hf : ¬wu.fake_break < wu.fake_break_limit) :
    wu.Check b n
      = ("complete",
         { wu with record_mode := false, back_to_silence := 0, threshold := wu.th_off }) := by
  simp [WakeUp.Check, hr, hs, hb, hf]

lemma reach_threshold_inv {tts : ℤ} {a b : ℚ} {ab : Bool} {wu : WakeUp}
    (h : Reach (InitWakeUp tts a b ab) wu) :
    wu.th_on = a ∧ wu.th_off = b
    ∧ (wu.record_mode = true → wu.threshold = a)
    ∧ (wu.threshold = a ∨ wu.threshold = b) := by
  induction h with
  | refl => exact ⟨rfl, rfl, by simp [InitWakeUp], Or.inr rfl⟩
  | @step blk n wu' h ih =>
    obtain ⟨h1, h2, h3, h4⟩ := ih
    by_cases hr : wu'.record_mode
    · by_cases hs : IsSilent blk wu'.threshold false false = true
      · by_cases hb : wu'.back_to_silence > wu'.tts
        · by_cases hf : wu'.fake_break < wu'.fake_break_limit
          · rw [Check_rec_silent_drop hr hs hb hf]
            exact ⟨h1, h2, by simp, h4⟩
          · rw [Check_rec_silent_complete hr hs hb hf]
            exact ⟨h1, h2, by simp, Or.inr h2⟩
        · rw [Check_rec_silent_cont hr hs hb]
          exact ⟨h1, h2, fun _ => h3 hr, h4⟩
      · rw [Check_rec_nonsilent hr (by simpa using hs)]
        exact ⟨h1, h2, fun _ => h3 hr, h4⟩
    · have hr' : wu'.record_mode = false := by simpa using hr
      by_cases hs : IsSilent blk wu'.threshold false false = true
      · rw [Check_idle_silent hr' hs]
        exact ⟨h1, h2, h3, h4⟩
      · rw [Check_idle_loud hr' (by simpa using hs)]
        exact ⟨h1, h2, fun _ => h1, Or.inl h1⟩

/-- C2 (amended).  In every detector state reachable from `InitWakeUp`:
the threshold equals the on-threshold whenever recording, and always
equals one of the two thresholds; a non-silent block processed while
recording resets `back_to_silence` to 0.  The single deviation from the
claim: a `Check` call that returns `"drop"` leaves recording but keeps
the threshold unchanged (i.e. at the on-threshold), while only
`"complete"` restores the off-threshold. -/
theorem c2_threshold_invariant_amended (tts : ℤ) (a b : ℚ) (ab : Bool) (wu : WakeUp)
    (h : Reach (InitWakeUp tts a b ab) wu) :
    ((wu.record_mode = true → wu.threshold = a) ∧ (wu.threshold = a ∨ wu.threshold = b))
    ∧ (∀ (blk : Block) (n : ℕ), wu.record_mode = true →
        IsSilent blk wu.threshold false false = false →
        (wu.Check blk n).2.back_to_silence = 0)
    ∧ (∀ (blk : Block) (n : ℕ), (wu.Check blk n).1 = "drop" →
        (wu.Check blk n).2.threshold = wu.threshold
        ∧ (wu.Check blk n).2.record_mode = false)
    ∧ (∀ (blk : Block) (n : ℕ), (wu.Check blk n).1 = "complete" →
        (wu.Check blk n).2.threshold = b) := by
  obtain ⟨h1, h2, h3, h4⟩ := reach_threshold_inv h
  refine ⟨⟨h3, h4⟩, ?_, ?_, ?_⟩
  · intro blk n hr hs
    rw [Check_rec_nonsilent hr hs]
  · intro blk n hd
    by_cases hr : wu.record_mode
    · by_cases hs : IsSilent blk wu.threshold false false = true
      · by_cases hb : wu.back_to_silence > wu.tts
        · by_cases hf : wu.fake_break < wu.fake_break_limit
          · rw [Check_rec_silent_drop hr hs hb hf]
            exact ⟨rfl, rfl⟩
          · rw [Check_rec_silent_complete hr hs hb hf] at hd
            simp at hd
        · rw [Check_rec_silent_cont hr hs hb] at hd
          simp at hd
      · rw [Check_rec_nonsilent hr (by simpa using hs)] at hd
        simp at hd
    · have hr' : wu.record_mode = false := by simpa using hr
      by_cases hs : IsSilent blk wu.threshold false false = true
      · rw [Check_idle_silent hr' hs] at hd
        simp at hd
      · rw [Check_idle_loud hr' (by simpa using hs)] at hd
        simp at hd
  · intro blk n hc
    by_cases hr : wu.record_mode
    · by_cases hs : IsSilent blk wu.threshold false false = true
      · by_cases hb : wu.back_to_silence > wu.tts
        · by_cases hf : wu.fake_break < wu.fake_break_limit
          · rw [Check_rec_silent_drop hr hs hb hf] at hc
            simp at hc
          · rw [Check_rec_silent_complete hr hs hb hf]
            exact h2
        · rw [Check_rec_silent_cont hr hs hb] at hc
          simp at hc
      · rw [Check_rec_nonsilent hr (by simpa using hs)] at hc
        simp at hc
    · have hr' : wu.record_mode = false := by simpa using hr
      by_cases hs : IsSilent blk wu.threshold false false = true
      · rw [Check_idle_silent hr' hs] at hc
        simp at hc
      · rw [Check_idle_loud hr' (by simpa using hs)] at hc
        simp at hc

/-- C2 witness: the amended invariant applied at the initial state. -/
theorem c2_threshold_invariant_witness :
    ((InitWakeUp 0 (mkRat 1 50) (mkRat 1 20) false).record_mode = true →
        (InitWakeUp 0 (mkRat 1 50) (mkRat 1 20) false).threshold = mkRat 1 50)
    ∧ ((InitWakeUp 0 (mkRat 1 50) (mkRat 1 20) false).threshold = mkRat 1 50
        ∨ (InitWakeUp 0 (mkRat 1 50) (mkRat 1 20) false).threshold = mkRat 1 20) :=
  (c2_threshold_invariant_amended 0 (mkRat 1 50) (mkRat 1 20) false _ Reach.refl).1

/-- C2 counterexample: after a loud block and two silent blocks from
`InitWakeUp 0 0.02 0.05 false`, the detector has just returned `"drop"`:
it is not recording, yet its threshold is still the on-threshold 0.02,
not the off-threshold 0.05. -/
theorem c2_threshold_counterexample :
    Reach (InitWakeUp 0 (mkRat 1 50) (mkRat 1 20) false) wuAfterDrop
    ∧ (((((InitWakeUp 0 (mkRat 1 50) (mkRat 1 20) false).Check lb1 1).2.Check sb1
          1).2).Check sb1 1).1 = "drop"
    ∧ wuAfterDrop.record_mode = false
    ∧ wuAfterDrop.threshold = mkRat 1 50
    ∧ wuAfterDrop.th_off = mkRat 1 20
    ∧ mkRat 1 50 ≠ mkRat 1 20 := by
  refine ⟨Reach.step sb1 1 (Reach.step sb1 1 (Reach.step lb1 1 Reach.refl)),
    by decide, by decide, by decide, by decide, by decide⟩

lemma check_fake_break (wu : WakeUp) (b : Block) (n : ℕ) :
    (wu.Check b n).2.fake_break
      = wu.fake_break
        + (if wu.record_mode = true ∧ IsSilent b wu.threshold false false = false
           then 1 else 0) := by
  by_cases hr : wu.record_mode
  · by_cases hs : IsSilent b wu.threshold false false = true
    · by_cases hb : wu.back_to_silence > wu.tts
      · by_cases hf : wu.fake_break < wu.fake_break_limit
        · rw [Check_rec_silent_drop hr hs hb hf]; simp [hs]
        · rw [Check_rec_silent_complete hr hs hb hf]; simp [hs]
      · rw [Check_rec_silent_cont hr hs hb]; simp [hs]
    · rw [Check_rec_nonsilent hr (by simpa using hs)]
      simp [hr, by simpa using hs]
  · have hr' : wu.record_mode = false := by simpa using hr
    by_cases hs : IsSilent b wu.threshold false false = true
    · rw [Check_idle_silent hr' hs]; simp [WakeUp.BackupSamples, hr']
    · rw [Check_idle_loud hr' (by simpa using hs)]; simp [hr']

lemma detRun_fake_break (bs : List (Block × ℕ)) :
    ∀ wu : WakeUp, (detRun wu bs).fake_break = wu.fake_break + noisyRecCount wu bs := by
  induction bs with
  | nil => intro wu; simp [detRun, noisyRecCount]
  | cons p r ih =>
    intro wu
    have hd : detRun wu (p :: r) = detRun (wu.Check p.1 p.2).2 r := by
      simp [detRun]
    rw [hd, ih, check_fake_break]
    simp only [noisyRecCount]
    push_cast
    ring

lemma epStep_published {f : Format} {st st1 : EPState} {inp : Block × ℕ} {o : StepOut}
    (h : epStep f st inp = some (st1, o)) :
    st1.published.length
      = st.published.length + (if o.signal = "complete" then 1 else 0) := by
  have h' := congrArg
    (Option.map (fun p : EPState × StepOut => (p.1.published.length, p.2.signal))) h
  by_cases h1 : (st.wu.Check inp.1 inp.2).1 = "complete"
  · rcases hws : WriteSamples f st.seg.twritten inp.1 inp.2 with _ | ⟨ok, tw, bs⟩
    · simp [epStep, h1, hws] at h
    · simp [epStep, h1, hws] at h'
      rw [← h'.1, ← h'.2]
      simp
  · by_cases h2 : (st.wu.Check inp.1 inp.2).1 = "init"
    · rcases hwf : writeFold f
        (((st.wu.Check inp.1 inp.2).2.RefreshMem).1.map (fun ss => (ss, ss.length))
          ++ [(inp.1, inp.2)]) st.seg.twritten with _ | tw
      · simp [epStep, h1, h2, hwf] at h
      · simp [epStep, h1, h2, hwf] at h'
        rw [← h'.1, ← h'.2]
        simp [h2]
    · by_cases h3 : (st.wu.Check inp.1 inp.2).1 = "drop"
      · simp [epStep, h1, h2, h3] at h'
        rw [← h'.1, ← h'.2]
        simp [h3]
      · by_cases h4 : (st.wu.Check inp.1 inp.2).1 = "continue"
        · rcases hws : WriteSamples f st.seg.twritten inp.1 inp.2 with _ | ⟨ok, tw, bs⟩
          · simp [epStep, h1, h2, h3, h4, hws] at h
          · simp [epStep, h1, h2, h3, h4, hws] at h'
            rw [← h'.1, ← h'.2]
            simp [h4]
        · simp [epStep, h1, h2, h3, h4] at h'
          rw [← h'.1, ← h'.2]
          simp [h1]

lemma runEP_published_count {f : Format} (bs : List (Block × ℕ)) :
    ∀ (st : EPState) (out : EPState × List StepOut), runEP f st bs = some out →
      out.1.published.length
        = st.published.length + (out.2.filter (fun o => o.signal = "complete")).length := by
  induction bs with
  | nil =>
    intro st out h
    simp [runEP] at h
    rw [← h]
    simp
  | cons inp rest ih =>
    intro st out h
    rcases hst : epStep f st inp with _ | ⟨st1, o⟩
    · simp [runEP, hst] at h
    · rcases hrun : runEP f st1 rest with _ | ⟨stf, os⟩
      · simp [runEP, hst, hrun] at h
      · simp only [runEP, hst, hrun] at h
        injection h with h'
        rw [← h']
        have h2 := ih st1 (stf, os) hrun
        have h3 := epStep_published hst
        by_cases hsig : o.signal = "complete"
        · simp [List.filter, hsig, h2, h3]
          omega
        · simp [List.filter, hsig, h2, h3]

lemma runEP_trace_length {f : Format} (bs : List (Block × ℕ)) :
    ∀ (st : EPState) (out : EPState × List StepOut), runEP f st bs = some out →
      out.2.length = bs.length := by
  induction bs with
  | nil =>
    intro st out h
    simp [runEP] at h
    rw [← h]
    simp
  | cons inp rest ih =>
    intro st out h
    rcases hst : epStep f st inp with _ | ⟨st1, o⟩
    · simp [runEP, hst] at h
    · rcases hrun : runEP f st1 rest with _ | ⟨stf, os⟩
      · simp [runEP, hst, hrun] at h
      · simp only [runEP, hst, hrun] at h
        injection h with h'
        rw [← h']
        simpa using ih st1 (stf, os) hrun

lemma runEP_append {f : Format} (xs ys : List (Block × ℕ)) :
    ∀ st : EPState, runEP f st (xs ++ ys)
      = match runEP f st xs with
        | none => none
        | some (st1, os) =>
          match runEP f st1 ys with
          | none => none
          | some (st2, os2) => some (st2, os ++ os2) := by
  induction xs with
  | nil =>
    intro st
    simp [runEP]
    rcases runEP f st ys with _ | ⟨st2, os2⟩ <;> simp
  | cons inp rest ih =>
    intro st
    show runEP f st (inp :: (rest ++ ys)) = _
    rcases hst : epStep f st inp with _ | ⟨st1, o⟩
    · simp [runEP, hst]
    · simp only [runEP, hst, ih st1]
      rcases h2 : runEP f st1 rest with _ | ⟨st2, os⟩
      · simp
      · rcases h3 : runEP f st2 ys with _ | ⟨st3, os3⟩ <;> simp [h3]

/-- C3.  `fake_break_limit` is 2 and the noisy-block counter starts at 0;
at a `Check` call on which the silence timeout expires while recording,
the signal is `"drop"` exactly when the noisy-block counter is below the
limit (and `"complete"` otherwise), recording ends either way; the
counter equals the number of non-silent blocks processed while recording
since `InitWakeUp` (its only reset); and a run of the perpetual encoder
publishes exactly one buffer per `"complete"` signal — in particular a
`"drop"`-terminated segment publishes nothing. -/
theorem c3_fake_break_drop_decision :
    (∀ (tts : ℤ) (a b : ℚ) (ab : Bool),
        (InitWakeUp tts a b ab).fake_break_limit = 2
        ∧ (InitWakeUp tts a b ab).fake_break = 0)
    ∧ (∀ (wu : WakeUp) (blk : Block) (n : ℕ),
        wu.record_mode = true → IsSilent blk wu.threshold false false = true →
        wu.back_to_silence > wu.tts →
        (((wu.Check blk n).1 = "drop" ↔ wu.fake_break < wu.fake_break_limit)
         ∧ ((wu.Check blk n).1 = "drop" ∨ (wu.Check blk n).1 = "complete")
         ∧ (wu.Check blk n).2.record_mode = false))
    ∧ (∀ (wu : WakeUp) (bs : List (Block × ℕ)),
        (detRun wu bs).fake_break = wu.fake_break + noisyRecCount wu bs)
    ∧ (∀ (f : Format) (st : EPState) (bs : List (Block × ℕ))
          (out : EPState × List StepOut),
        runEP f st bs = some out →
        out.1.published.length
          = st.published.length
            + (out.2.filter (fun o => o.signal = "complete")).length) := by
  refine ⟨fun _ _ _ _ => ⟨rfl, rfl⟩, ?_, fun wu bs => detRun_fake_break bs wu,
    fun f st bs out h => runEP_published_count bs st out h⟩
  intro wu blk n hr hs hb
  by_cases hf : wu.fake_break < wu.fake_break_limit
  · rw [Check_rec_silent_drop hr hs hb hf]
    exact ⟨⟨fun _ => hf, fun _ => rfl⟩, Or.inl rfl, rfl⟩
  · rw [Check_rec_silent_complete hr hs hb hf]
    exact ⟨⟨fun hc => by simp at hc, fun hc => absurd hc hf⟩, Or.inr rfl, rfl⟩

/-- C3 witness: the decision rule applied at a concrete expired-timeout
state (the signal is `"drop"` since only 0 noisy blocks were seen while
recording), the counter law on a concrete trace, and the
publish-per-complete law on a concrete run that ends with a drop. -/
theorem c3_fake_break_drop_decision_witness :
    wuT.record_mode = true
    ∧ IsSilent sb1 wuT.threshold false false = true
    ∧ wuT.back_to_silence > wuT.tts
    ∧ ((wuT.Check sb1 1).1 = "drop" ↔ wuT.fake_break < wuT.fake_break_limit)
    ∧ (detRun (InitWakeUp 0 (mkRat 1 50) (mkRat 1 20) false) [(lb1, 1), (sb1, 1), (sb1, 1)]).fake_break
        = (InitWakeUp 0 (mkRat 1 50) (mkRat 1 20) false).fake_break
          + noisyRecCount (InitWakeUp 0 (mkRat 1 50) (mkRat 1 20) false)
              [(lb1, 1), (sb1, 1), (sb1, 1)]
    ∧ runEP fmt4 (epInit 0 (mkRat 1 50) (mkRat 1 20) false) [(lb1, 1), (sb1, 1), (sb1, 1)]
        = some c3out
    ∧ c3out.1.published.length
        = (epInit 0 (mkRat 1 50) (mkRat 1 20) false).published.length
          + (c3out.2.filter (fun o => o.signal = "complete")).length
    ∧ (c3out.2.map (fun o => o.signal)) = ["init", "continue", "drop"]
    ∧ c3out.1.published.length = 0 := by
  have h1 : wuT.record_mode = true := by decide
  have h2 : IsSilent sb1 wuT.threshold false false = true := by decide
  have h3 : wuT.back_to_silence > wuT.tts := by decide
  have h6 : runEP fmt4 (epInit 0 (mkRat 1 50) (mkRat 1 20) false)
      [(lb1, 1), (sb1, 1), (sb1, 1)] = some c3out := by decide
  exact ⟨h1, h2, h3,
    ((c3_fake_break_drop_decision.2.1 wuT sb1 1 h1 h2 h3).1),
    c3_fake_break_drop_decision.2.2.1 _ _,
    h6,
    c3_fake_break_drop_decision.2.2.2 fmt4 _ _ _ h6,
    by decide, by decide⟩

/-- C9.  When the sample source reports exhaustion the loop just returns:
over any finite pull sequence, the number of published buffers equals the
number of `"complete"` signals in the trace — nothing is finalized or
published for a segment still in progress when the input ends. -/
theorem c9_exhaustion_publishes_nothing (f : Format) (tts : ℤ) (a b : ℚ) (ab : Bool)
    (bs : List (Block × ℕ)) (out : EPState × List StepOut)
    (h : runEP f (epInit tts a b ab) bs = some out) :
    out.1.published.length = (out.2.filter (fun o => o.signal = "complete")).length := by
  have := runEP_published_count bs (epInit tts a b ab) out h
  simpa [epInit] using this

/-- C9 witness: a source that dies two blocks in, mid-recording: the trace
has no `"complete"`, nothing is published, yet 4 payload bytes had been
written for the in-progress segment (and are discarded). -/
theorem c9_exhaustion_witness :
    runEP fmt4 (epInit 5 (mkRat 1 50) (mkRat 1 20) false) c9bs = some c9out
    ∧ c9out.1.published.length
        = (c9out.2.filter (fun o => o.signal = "complete")).length
    ∧ c9out.1.wu.record_mode = true
    ∧ c9out.1.seg.twritten = 4
    ∧ c9out.1.published = [] := by
  have h : runEP fmt4 (epInit 5 (mkRat 1 50) (mkRat 1 20) false) c9bs = some c9out := by
    decide
  exact ⟨h, c9_exhaustion_publishes_nothing fmt4 5 _ _ false c9bs c9out h,
    by decide, by decide, by decide⟩

/-- C8 (amended).  `StartWithDetect` never receives from `ep.stop_ch`: the
loop body is insensitive to a pending Stop signal, and the worker keeps
pulling until the source itself is exhausted — one trace entry per
available block, with no flush triggered by Stop. -/
theorem c8_stop_never_consumed :
    (∀ (f : Format) (stp : Bool) (st : EPState) (inp : Block × ℕ),
        epStepWithStop f stp st inp = epStepWithStop f false st inp)
    ∧ (∀ (f : Format) (st : EPState) (bs : List (Block × ℕ))
          (out : EPState × List StepOut),
        runEP f st bs = some out → out.2.length = bs.length) :=
  ⟨fun _ _ _ _ => rfl, fun _ st bs out h => runEP_trace_length bs st out h⟩

/-- C8 witness: the insensitivity and the keep-pulling law at a concrete
mid-recording state and input. -/
theorem c8_stop_never_consumed_witness :
    epStepWithStop fmt4 true c8st1 (sb1, 1) = epStepWithStop fmt4 false c8st1 (sb1, 1)
    ∧ runEP fmt4 c8st1 c8bs = some c8out
    ∧ c8out.2.length = c8bs.length := by
  have h : runEP fmt4 c8st1 c8bs = some c8out := by decide
  exact ⟨c8_stop_never_consumed.1 fmt4 true c8st1 (sb1, 1), h,
    c8_stop_never_consumed.2 fmt4 c8st1 c8bs c8out h⟩

/-- C8 counterexample: with a recording active (non-zero bytes written)
and a Stop pending, the worker behaves exactly as with no Stop pending —
it performs three further pulls and flushes nothing to the delivery
channel, contradicting the claimed flush-and-halt. -/
theorem c8_stop_counterexample :
    c8st1.wu.record_mode = true
    ∧ c8st1.seg.twritten = 2
    ∧ epStepWithStop fmt4 true c8st1 (sb1, 1) = epStepWithStop fmt4 false c8st1 (sb1, 1)
    ∧ (runEP fmt4 c8st1 c8bs).map (fun o => (o.2.length, o.1.published.length))
        = some (3, 0) := by
  exact ⟨by decide, by decide, rfl, by decide⟩

lemma parse32_le32 (v : ℤ) (h1 : -2147483648 ≤ v) (h2 : v < 2147483648) :
    parse32 (le32 v) = v := by
  have hm0 : (0:ℤ) ≤ v % 4294967296 := Int.emod_nonneg v (by norm_num)
  have hm1 : v % 4294967296 < 4294967296 := Int.emod_lt_of_pos v (by norm_num)
  simp only [le32, parse32]
  split_ifs with h
  · omega
  · omega

lemma le32_int32c (v : ℤ) : le32 (int32c v) = le32 v := by
  have h : int32c v % 4294967296 = v % 4294967296 := by
    unfold int32c
    omega
  simp [le32, h]

lemma fileSizeField_hb (f : Format) (fs ds : ℤ) :
    fileSizeField ({ GetHeaders f with fileSize := fs, dataSize := ds } : Header).bytes
      = parse32 (le32 fs) := rfl

lemma dataSizeField_hb (f : Format) (fs ds : ℤ) :
    dataSizeField ({ GetHeaders f with fileSize := fs, dataSize := ds } : Header).bytes
      = parse32 (le32 ds) := rfl

lemma hb_length (f : Format) (fs ds : ℤ) :
    ({ GetHeaders f with fileSize := fs, dataSize := ds } : Header).bytes.length = 44 := rfl

/-- C1 (amended).  For every valid configuration and completed capture
(within the 32-bit header range): the seekable one-shot `Encode` rewrites
the header in place, so the *first* 44 bytes reparse to
file-size = 44 + dataSize and data-size = the exact PCM byte count
(including dataSize = 0 and captures of any number of blocks); but the
append-only `EncodeBuff` and the `FinalizeDataBuff` path used for every
buffer published by the perpetual encoder instead append the corrected
header *after* the payload: their first 44 bytes keep the placeholder
sizes (−1), while their last 44 bytes reparse to the claimed values. -/
theorem c1_finalize_header_amended (f : Format) (input : List (Block × ℕ))
    (payload : List ℕ)
    (hch : 0 < f.numChannels)
    (hpr : f.precision = 1 ∨ f.precision = 2 ∨ f.precision = 3)
    (hloop : encodeLoop f input = some payload)
    (hsz : (payload.length : ℤ) + 44 < 2147483648) :
    (Encode f input = .ok ((finalHeaders f payload.length).bytes ++ payload)
      ∧ fileSizeField (((finalHeaders f payload.length).bytes ++ payload).take 44)
          = 44 + (payload.length : ℤ)
      ∧ dataSizeField (((finalHeaders f payload.length).bytes ++ payload).take 44)
          = (payload.length : ℤ))
    ∧ (EncodeBuff f input
        = .ok ((GetHeaders f).bytes ++ payload ++ (finalHeaders f payload.length).bytes)
      ∧ fileSizeField
          (((GetHeaders f).bytes ++ payload ++ (finalHeaders f payload.length).bytes).take 44)
          = -1
      ∧ dataSizeField
          (((GetHeaders f).bytes ++ payload ++ (finalHeaders f payload.length).bytes).take 44)
          = -1
      ∧ fileSizeField
          (((GetHeaders f).bytes ++ payload ++ (finalHeaders f payload.length).bytes).drop
            (44 + payload.length))
          = 44 + (payload.length : ℤ)
      ∧ dataSizeField
          (((GetHeaders f).bytes ++ payload ++ (finalHeaders f payload.length).bytes).drop
            (44 + payload.length))
          = (payload.length : ℤ))
    ∧ (∀ (pl : List ℕ) (w : ℕ), (w : ℤ) + 44 < 2147483648 →
        fileSizeField ((FinalizeDataBuffBytes f pl w).take 44) = -1
        ∧ dataSizeField ((FinalizeDataBuffBytes f pl w).take 44) = -1
        ∧ fileSizeField ((FinalizeDataBuffBytes f pl w).drop (44 + pl.length))
            = 44 + (w : ℤ)
        ∧ dataSizeField ((FinalizeDataBuffBytes f pl w).drop (44 + pl.length))
            = (w : ℤ)) := by
  have hfsz : ∀ w : ℕ, (w : ℤ) + 44 < 2147483648 →
      fileSizeField (finalHeaders f w).bytes = 44 + (w : ℤ) := by
    intro w hw
    have h1 : fileSizeField (finalHeaders f w).bytes = parse32 (le32 (int32c (44 + (w : ℤ)))) :=
      fileSizeField_hb f _ _
    rw [h1, le32_int32c, parse32_le32 _ (by omega) (by omega)]
  have hdsz : ∀ w : ℕ, (w : ℤ) + 44 < 2147483648 →
      dataSizeField (finalHeaders f w).bytes = (w : ℤ) := by
    intro w hw
    have h1 : dataSizeField (finalHeaders f w).bytes = parse32 (le32 (int32c (w : ℤ))) :=
      dataSizeField_hb f _ _
    rw [h1, le32_int32c, parse32_le32 _ (by omega) (by omega)]
  have hph_fs : fileSizeField (GetHeaders f).bytes = -1 := by
    have h1 : fileSizeField (GetHeaders f).bytes = parse32 (le32 (-1)) :=
      fileSizeField_hb f (-1) (-1)
    rw [h1, parse32_le32 _ (by norm_num) (by norm_num)]
  have hph_ds : dataSizeField (GetHeaders f).bytes = -1 := by
    have h1 : dataSizeField (GetHeaders f).bytes = parse32 (le32 (-1)) :=
      dataSizeField_hb f (-1) (-1)
    rw [h1, parse32_le32 _ (by norm_num) (by norm_num)]
  have hget_len : (GetHeaders f).bytes.length = 44 := hb_length f (-1) (-1)
  have hfin_len : ∀ w : ℕ, (finalHeaders f w).bytes.length = 44 := fun w => hb_length f _ _
  have htail : ∀ (pl : List ℕ) (w : ℕ),
      ((GetHeaders f).bytes ++ pl ++ (finalHeaders f w).bytes).drop (44 + pl.length)
        = (finalHeaders f w).bytes := by
    intro pl w
    refine List.drop_left' ?_
    rw [List.length_append, hget_len]
  have hhead : ∀ (pl : List ℕ) (tl : List ℕ),
      ((GetHeaders f).bytes ++ pl ++ tl).take 44 = (GetHeaders f).bytes := by
    intro pl tl
    rw [List.append_assoc]
    exact List.take_left' hget_len
  refine ⟨⟨?_, ?_, ?_⟩, ⟨?_, ?_, ?_, ?_, ?_⟩, ?_⟩
  · simp only [Encode]
    rw [if_neg (by omega : ¬f.numChannels ≤ 0), if_neg (not_not_intro hpr), hloop]
  · rw [List.take_left' (hfin_len payload.length)]
    exact hfsz payload.length hsz
  · rw [List.take_left' (hfin_len payload.length)]
    exact hdsz payload.length (by omega)
  · simp only [EncodeBuff]
    rw [if_neg (by omega : ¬f.numChannels ≤ 0), if_neg (not_not_intro hpr), hloop]
  · rw [hhead]
    exact hph_fs
  · rw [hhead]
    exact hph_ds
  · rw [htail]
    exact hfsz payload.length hsz
  · rw [htail]
    exact hdsz payload.length (by omega)
  · intro pl w hw
    refine ⟨?_, ?_, ?_, ?_⟩
    · rw [show FinalizeDataBuffBytes f pl w
          = (GetHeaders f).bytes ++ pl ++ (finalHeaders f w).bytes from rfl, hhead]
      exact hph_fs
    · rw [show FinalizeDataBuffBytes f pl w
          = (GetHeaders f).bytes ++ pl ++ (finalHeaders f w).bytes from rfl, hhead]
      exact hph_ds
    · rw [show FinalizeDataBuffBytes f pl w
          = (GetHeaders f).bytes ++ pl ++ (finalHeaders f w).bytes from rfl, htail]
      exact hfsz w hw
    · rw [show FinalizeDataBuffBytes f pl w
          = (GetHeaders f).bytes ++ pl ++ (finalHeaders f w).bytes from rfl, htail]
      exact hdsz w hw

/-- C1 counterexample: the empty capture published through the
`bytes.Buffer` path (and, identically, `EncodeBuff`): the first 44 bytes
of the produced stream still parse to file-size −1 and data-size −1, not
to 44 and 0 as the claim requires. -/
theorem c1_finalize_header_counterexample :
    EncodeBuff fmt4 [] = .ok (FinalizeDataBuffBytes fmt4 [] 0)
    ∧ Segment.bytes fmt4 ⟨[], 0⟩ = FinalizeDataBuffBytes fmt4 [] 0
    ∧ fileSizeField ((FinalizeDataBuffBytes fmt4 [] 0).take 44) = -1
    ∧ dataSizeField ((FinalizeDataBuffBytes fmt4 [] 0).take 44) = -1
    ∧ (-1 : ℤ) ≠ 44 + 0 := by
  exact ⟨rfl, rfl, by decide, by decide, by decide⟩

/-- C1 witness: the amended theorem at channels=1, precision=2 and the
empty (dataSize = 0) capture. -/
theorem c1_finalize_header_witness :
    (0 < fmt4.numChannels)
    ∧ (fmt4.precision = 1 ∨ fmt4.precision = 2 ∨ fmt4.precision = 3)
    ∧ encodeLoop fmt4 [] = some []
    ∧ fileSizeField (((finalHeaders fmt4 ([] : List ℕ).length).bytes ++ ([] : List ℕ)).take 44)
        = 44 + (([] : List ℕ).length : ℤ)
    ∧ fileSizeField
        (((GetHeaders fmt4).bytes ++ ([] : List ℕ)
            ++ (finalHeaders fmt4 ([] : List ℕ).length).bytes).take 44)
        = -1 := by
  have hch : 0 < fmt4.numChannels := by decide
  have hpr : fmt4.precision = 1 ∨ fmt4.precision = 2 ∨ fmt4.precision = 3 := by decide
  have hloop : encodeLoop fmt4 [] = some [] := by decide
  have hsz : ((([] : List ℕ).length : ℤ)) + 44 < 2147483648 := by decide
  exact ⟨hch, hpr, hloop,
    (c1_finalize_header_amended fmt4 [] [] hch hpr hloop hsz).1.2.1,
    (c1_finalize_header_amended fmt4 [] [] hch hpr hloop hsz).2.1.2.1⟩

lemma Check_mem_of_ne_empty {wu : WakeUp} {b : Block} {n : ℕ}
    (h : (wu.Check b n).1 ≠ "") :
    (wu.Check b n).2.bottom_memory = wu.bottom_memory := by
  by_cases hr : wu.record_mode
  · by_cases hs : IsSilent b wu.threshold false false = true
    · by_cases hb : wu.back_to_silence > wu.tts
      · by_cases hf : wu.fake_break < wu.fake_break_limit
        · rw [Check_rec_silent_drop hr hs hb hf]
        · rw [Check_rec_silent_complete hr hs hb hf]
      · rw [Check_rec_silent_cont hr hs hb]
    · rw [Check_rec_nonsilent hr (by simpa using hs)]
  · have hr' : wu.record_mode = false := by simpa using hr
    by_cases hs : IsSilent b wu.threshold false false = true
    · rw [Check_idle_silent hr' hs] at h
      simp at h
    · rw [Check_idle_loud hr' (by simpa using hs)]

lemma Check_mem_of_empty {wu : WakeUp} {b : Block} {n : ℕ}
    (h : (wu.Check b n).1 = "") :
    (wu.Check b n).2.bottom_memory = wu.bottom_memory.drop 1 ++ [b] := by
  by_cases hr : wu.record_mode
  · by_cases hs : IsSilent b wu.threshold false false = true
    · by_cases hb : wu.back_to_silence > wu.tts
      · by_cases hf : wu.fake_break < wu.fake_break_limit
        · rw [Check_rec_silent_drop hr hs hb hf] at h
          simp at h
        · rw [Check_rec_silent_complete hr hs hb hf] at h
          simp at h
      · rw [Check_rec_silent_cont hr hs hb] at h
        simp at h
    · rw [Check_rec_nonsilent hr (by simpa using hs)] at h
      simp at h
  · have hr' : wu.record_mode = false := by simpa using hr
    by_cases hs : IsSilent b wu.threshold false false = true
    · rw [Check_idle_silent hr' hs]
      simp [WakeUp.BackupSamples]
    · rw [Check_idle_loud hr' (by simpa using hs)] at h
      simp at h

lemma some_pair_inj {α β : Type} {a c : α} {b d : β}
    (h : (some (a, b) : Option (α × β)) = some (c, d)) : a = c ∧ b = d :=
  ⟨congrArg Prod.fst (Option.some.inj h), congrArg Prod.snd (Option.some.inj h)⟩

lemma epStep_eq_complete {f : Format} {st : EPState} {inp : Block × ℕ}
    {ok : Bool} {tw : ℕ} {bs : List ℕ}
    (h1 : (st.wu.Check inp.1 inp.2).1 = "complete")
    (hws : WriteSamples f st.seg.twritten inp.1 inp.2 = some (ok, tw, bs)) :
    epStep f st inp = some
      ({ wu := if (st.wu.Check inp.1 inp.2).2.autobalance = true
               then { (st.wu.Check inp.1 inp.2).2 with complete_samples := [] }
               else (st.wu.Check inp.1 inp.2).2,
         seg := ⟨[], 0⟩,
         published := st.published ++ [⟨st.seg.writes ++ [(inp.1, inp.2)], tw⟩] },
       ⟨(st.wu.Check inp.1 inp.2).1, []⟩) := by
  simp [epStep, h1, hws]

lemma epStep_eq_init {f : Format} {st : EPState} {inp : Block × ℕ} {tw : ℕ}
    (h2 : (st.wu.Check inp.1 inp.2).1 = "init")
    (hwf : writeFold f
        ((st.wu.Check inp.1 inp.2).2.bottom_memory.map (fun ss => (ss, ss.length))
          ++ [(inp.1, inp.2)]) st.seg.twritten = some tw) :
    epStep f st inp = some
      ({ wu := if (st.wu.Check inp.1 inp.2).2.autobalance = true
               then { (st.wu.Check inp.1 inp.2).2 with
                        bottom_memory := List.replicate 31 [],
                        complete_samples :=
                          (st.wu.Check inp.1 inp.2).2.complete_samples
                            ++ List.replicate
                                (st.wu.Check inp.1 inp.2).2.bottom_memory.length inp.1
                            ++ [inp.1] }
               else { (st.wu.Check inp.1 inp.2).2 with
                        bottom_memory := List.replicate 31 [] },
         seg := ⟨st.seg.writes
                  ++ ((st.wu.Check inp.1 inp.2).2.bottom_memory.map
                        (fun ss => (ss, ss.length)) ++ [(inp.1, inp.2)]), tw⟩,
         published := st.published },
       ⟨(st.wu.Check inp.1 inp.2).1, (st.wu.Check inp.1 inp.2).2.bottom_memory⟩) := by
  have hne : ¬(st.wu.Check inp.1 inp.2).1 = "complete" := by rw [h2]; decide
  simp [epStep, hne, h2, WakeUp.RefreshMem, hwf]

lemma epStep_eq_drop {f : Format} {st : EPState} {inp : Block × ℕ}
    (h3 : (st.wu.Check inp.1 inp.2).1 = "drop") :
    epStep f st inp = some
      ({ wu := (st.wu.Check inp.1 inp.2).2, seg := ⟨[], 0⟩, published := st.published },
       ⟨(st.wu.Check inp.1 inp.2).1, []⟩) := by
  have hne1 : ¬(st.wu.Check inp.1 inp.2).1 = "complete" := by rw [h3]; decide
  have hne2 : ¬(st.wu.Check inp.1 inp.2).1 = "init" := by rw [h3]; decide
  simp [epStep, hne1, hne2, h3]

lemma epStep_eq_continue {f : Format} {st : EPState} {inp : Block × ℕ}
    {ok : Bool} {tw : ℕ} {bs : List ℕ}
    (h4 : (st.wu.Check inp.1 inp.2).1 = "continue")
    (hws : WriteSamples f st.seg.twritten inp.1 inp.2 = some (ok, tw, bs)) :
    epStep f st inp = some
      ({ wu := if (st.wu.Check inp.1 inp.2).2.autobalance = true
               then { (st.wu.Check inp.1 inp.2).2 with
                        complete_samples :=
                          (st.wu.Check inp.1 inp.2).2.complete_samples ++ [inp.1] }
               else (st.wu.Check inp.1 inp.2).2,
         seg := ⟨st.seg.writes ++ [(inp.1, inp.2)], tw⟩,
         published := st.published },
       ⟨(st.wu.Check inp.1 inp.2).1, []⟩) := by
  have hne1 : ¬(st.wu.Check inp.1 inp.2).1 = "complete" := by rw [h4]; decide
  have hne2 : ¬(st.wu.Check inp.1 inp.2).1 = "init" := by rw [h4]; decide
  have hne3 : ¬(st.wu.Check inp.1 inp.2).1 = "drop" := by rw [h4]; decide
  simp [epStep, hne1, hne2, hne3, h4, hws]

lemma epStep_eq_other {f : Format} {st : EPState} {inp : Block × ℕ}
    (h1 : ¬(st.wu.Check inp.1 inp.2).1 = "complete")
    (h2 : ¬(st.wu.Check inp.1 inp.2).1 = "init")
    (h3 : ¬(st.wu.Check inp.1 inp.2).1 = "drop")
    (h4 : ¬(st.wu.Check inp.1 inp.2).1 = "continue") :
    epStep f st inp = some
      ({ wu := (st.wu.Check inp.1 inp.2).2, seg := st.seg, published := st.published },
       ⟨(st.wu.Check inp.1 inp.2).1, []⟩) := by
  simp [epStep, h1, h2, h3, h4]

lemma epStep_mem_preroll {f : Format} {st st1 : EPState} {inp : Block × ℕ} {o : StepOut}
    (h : epStep f st inp = some (st1, o)) :
    (o.preroll = st.wu.bottom_memory
      ∧ st1.wu.bottom_memory = List.replicate 31 [])
    ∨ (o.preroll = []
      ∧ (st1.wu.bottom_memory = st.wu.bottom_memory
         ∨ st1.wu.bottom_memory = st.wu.bottom_memory.drop 1 ++ [inp.1])) := by
  by_cases h1 : (st.wu.Check inp.1 inp.2).1 = "complete"
  · rcases hws : WriteSamples f st.seg.twritten inp.1 inp.2 with _ | ⟨ok, tw, bs⟩
    · simp [epStep, h1, hws] at h
    · rw [epStep_eq_complete h1 hws] at h
      obtain ⟨hst, ho⟩ := some_pair_inj h
      have hm : (st.wu.Check inp.1 inp.2).2.bottom_memory = st.wu.bottom_memory :=
        Check_mem_of_ne_empty (by rw [h1]; decide)
      refine Or.inr ⟨by rw [← ho], Or.inl ?_⟩
      rw [← hst]
      split <;> simp [hm]
  · by_cases h2 : (st.wu.Check inp.1 inp.2).1 = "init"
    · rcases hwf : writeFold f
        ((st.wu.Check inp.1 inp.2).2.bottom_memory.map (fun ss => (ss, ss.length))
          ++ [(inp.1, inp.2)]) st.seg.twritten with _ | tw
      · simp [epStep, h1, h2, WakeUp.RefreshMem, hwf] at h
      · rw [epStep_eq_init h2 hwf] at h
        obtain ⟨hst, ho⟩ := some_pair_inj h
        have hm : (st.wu.Check inp.1 inp.2).2.bottom_memory = st.wu.bottom_memory :=
          Check_mem_of_ne_empty (by rw [h2]; decide)
        refine Or.inl ⟨by rw [← ho]; exact hm, ?_⟩
        rw [← hst]
        split <;> simp
    · by_cases h3 : (st.wu.Check inp.1 inp.2).1 = "drop"
      · rw [epStep_eq_drop h3] at h
        obtain ⟨hst, ho⟩ := some_pair_inj h
        have hm : (st.wu.Check inp.1 inp.2).2.bottom_memory = st.wu.bottom_memory :=
          Check_mem_of_ne_empty (by rw [h3]; decide)
        refine Or.inr ⟨by rw [← ho], Or.inl ?_⟩
        rw [← hst]
        exact hm
      · by_cases h4 : (st.wu.Check inp.1 inp.2).1 = "continue"
        · rcases hws : WriteSamples f st.seg.twritten inp.1 inp.2 with _ | ⟨ok, tw, bs⟩
          · simp [epStep, h1, h2, h3, h4, hws] at h
          · rw [epStep_eq_continue h4 hws] at h
            obtain ⟨hst, ho⟩ := some_pair_inj h
            have hm : (st.wu.Check inp.1 inp.2).2.bottom_memory = st.wu.bottom_memory :=
              Check_mem_of_ne_empty (by rw [h4]; decide)
            refine Or.inr ⟨by rw [← ho], Or.inl ?_⟩
            rw [← hst]
            split <;> simp [hm]
        · rw [epStep_eq_other h1 h2 h3 h4] at h
          obtain ⟨hst, ho⟩ := some_pair_inj h
          by_cases h5 : (st.wu.Check inp.1 inp.2).1 = ""
          · refine Or.inr ⟨by rw [← ho], Or.inr ?_⟩
            rw [← hst]
            exact Check_mem_of_empty h5
          · refine Or.inr ⟨by rw [← ho], Or.inl ?_⟩
            rw [← hst]
            exact Check_mem_of_ne_empty h5

lemma drains_cons (o : StepOut) (os : List StepOut) :
    drains (o :: os) = o.preroll.filter neNil ++ drains os := by
  simp [drains, List.filter_append]

lemma filter_replicate_nil :
    (List.replicate 31 ([] : Block)).filter neNil = [] := by decide

lemma runEP_drains_nodup {f : Format} (bs : List (Block × ℕ)) :
    ∀ (st : EPState) (out : EPState × List StepOut),
      runEP f st bs = some out →
      (st.wu.bottom_memory.filter neNil).Nodup →
      (bs.map Prod.fst).Nodup →
      (∀ x ∈ st.wu.bottom_memory.filter neNil, x ∈ bs.map Prod.fst → False) →
      (drains out.2 ++ out.1.wu.bottom_memory.filter neNil).Nodup
      ∧ ∀ x ∈ drains out.2 ++ out.1.wu.bottom_memory.filter neNil,
          x ∈ st.wu.bottom_memory.filter neNil ∨ x ∈ bs.map Prod.fst := by
  induction bs with
  | nil =>
    intro st out h h2 h3 h4
    simp [runEP] at h
    rw [← h]
    constructor
    · simpa [drains] using h2
    · intro x hx
      simp [drains] at hx
      exact Or.inl (List.mem_filter.mpr (by simpa using hx))
  | cons inp rest ih =>
    intro st out h h2 h3 h4
    rcases hst : epStep f st inp with _ | ⟨st1, o⟩
    · simp [runEP, hst] at h
    · rcases hrun : runEP f st1 rest with _ | ⟨stf, os⟩
      · simp [runEP, hst, hrun] at h
      · simp only [runEP, hst, hrun] at h
        injection h with h'
        rw [← h']
        have h3head : inp.1 ∉ rest.map Prod.fst := by
          rw [List.map_cons] at h3
          exact (List.nodup_cons.mp h3).1
        have h3tail : (rest.map Prod.fst).Nodup := by
          rw [List.map_cons] at h3
          exact (List.nodup_cons.mp h3).2
        rcases epStep_mem_preroll hst with ⟨ho, hm⟩ | ⟨ho, hm⟩
        · -- init: the whole memory is drained, the new memory is empty
          have h2' : (st1.wu.bottom_memory.filter neNil).Nodup := by
            rw [hm, filter_replicate_nil]
            exact List.nodup_nil
          have h4' : ∀ x ∈ st1.wu.bottom_memory.filter neNil,
              x ∈ rest.map Prod.fst → False := by
            intro x hx
            rw [hm, filter_replicate_nil] at hx
            simp at hx
          obtain ⟨ihN, ihM⟩ := ih st1 (stf, os) hrun h2' h3tail h4'
          have hdr : drains (o :: os) = st.wu.bottom_memory.filter neNil ++ drains os := by
            rw [drains_cons, ho]
          constructor
          · rw [hdr, List.append_assoc]
            rw [List.nodup_append]
            refine ⟨h2, ihN, ?_⟩
            intro x hx1 hx2
            rcases ihM x hx2 with hA | hB
            · rw [hm, filter_replicate_nil] at hA
              simp at hA
            · exact h4 x hx1 (by simp [hB])
          · intro x hx
            rw [hdr, List.append_assoc, List.mem_append] at hx
            rcases hx with hx | hx
            · exact Or.inl hx
            · rcases ihM x hx with hA | hB
              · rw [hm, filter_replicate_nil] at hA
                simp at hA
              · exact Or.inr (by simp [hB])
        · -- no drain this step
          have hdr : drains (o :: os) = drains os := by
            rw [drains_cons, ho]
            simp
          have hsub : ∀ x ∈ st1.wu.bottom_memory.filter neNil,
              x ∈ st.wu.bottom_memory.filter neNil ∨ x = inp.1 := by
            intro x hx
            rcases hm with hm | hm
            · rw [hm] at hx
              exact Or.inl hx
            · rw [hm, List.filter_append, List.mem_append] at hx
              rcases hx with hx | hx
              · refine Or.inl ?_
                exact List.Sublist.mem hx ((List.drop_sublist 1 _).filter neNil)
              · rcases List.mem_filter.mp hx with ⟨hx1, _⟩
                exact Or.inr (by simpa using hx1)
          have h2' : (st1.wu.bottom_memory.filter neNil).Nodup := by
            rcases hm with hm | hm
            · rw [hm]
              exact h2
            · rw [hm, List.filter_append]
              rw [List.nodup_append]
              refine ⟨(h2.sublist ((List.drop_sublist 1 _).filter neNil)),
                ((List.nodup_singleton inp.1).filter neNil), ?_⟩
              intro x hx1 hx2
              rcases List.mem_filter.mp hx2 with ⟨hx2', _⟩
              have hxe : x = inp.1 := by simpa using hx2'
              have hxmem : x ∈ st.wu.bottom_memory.filter neNil :=
                List.Sublist.mem hx1 ((List.drop_sublist 1 _).filter neNil)
              exact h4 x hxmem (by simp [hxe])
          have h4' : ∀ x ∈ st1.wu.bottom_memory.filter neNil,
              x ∈ rest.map Prod.fst → False := by
            intro x hx hxr
            rcases hsub x hx with hA | hB
            · exact h4 x hA (by simp [hxr])
            · rw [hB] at hxr
              exact h3head hxr
          obtain ⟨ihN, ihM⟩ := ih st1 (stf, os) hrun h2' h3tail h4'
          constructor
          · rw [hdr]
            exact ihN
          · intro x hx
            rw [hdr] at hx
            rcases ihM x hx with hA | hB
            · rcases hsub x hA with hC | hC
              · exact Or.inl hC
              · exact Or.inr (by simp [hC])
            · exact Or.inr (by simp [hB])

/-- C7.  On an `"init"` signal the encoder drains the rolling memory
exactly once: it appends the memory's blocks slot 0 (oldest) to slot 30
(newest) in order, then the triggering block, to the segment's writes,
and the detector's memory is left cleared (31 `nil` slots); moreover over
any whole run on pairwise-distinct input blocks, the concatenation of all
drained pre-roll blocks has no duplicate — no rolling-memory block is
ever written twice across onsets. -/
theorem c7_init_drain :
    (∀ (f : Format) (st : EPState) (inp : Block × ℕ) (st1 : EPState) (o : StepOut)
        (wu1 : WakeUp),
        st.wu.Check inp.1 inp.2 = ("init", wu1) →
        epStep f st inp = some (st1, o) →
        st1.seg.writes
            = st.seg.writes ++ wu1.bottom_memory.map (fun ss => (ss, ss.length))
                ++ [(inp.1, inp.2)]
          ∧ st1.wu.bottom_memory = List.replicate 31 []
          ∧ o.preroll = wu1.bottom_memory
          ∧ o.signal = "init")
    ∧ (∀ (f : Format) (tts : ℤ) (a b : ℚ) (ab : Bool) (bs : List (Block × ℕ))
          (out : EPState × List StepOut),
        runEP f (epInit tts a b ab) bs = some out →
        (bs.map Prod.fst).Nodup →
        (drains out.2).Nodup) := by
  constructor
  · intro f st inp st1 o wu1 hres h
    have h2 : (st.wu.Check inp.1 inp.2).1 = "init" := by rw [hres]
    have hwu1 : (st.wu.Check inp.1 inp.2).2 = wu1 := by rw [hres]
    rcases hwf : writeFold f
        ((st.wu.Check inp.1 inp.2).2.bottom_memory.map (fun ss => (ss, ss.length))
          ++ [(inp.1, inp.2)]) st.seg.twritten with _ | tw
    · have h1 : ¬(st.wu.Check inp.1 inp.2).1 = "complete" := by rw [h2]; decide
      simp [epStep, h1, h2, WakeUp.RefreshMem, hwf] at h
    · rw [epStep_eq_init h2 hwf] at h
      obtain ⟨hst, ho⟩ := some_pair_inj h
      refine ⟨?_, ?_, ?_, ?_⟩
      · rw [← hst]
        simp [hwu1, List.append_assoc]
      · rw [← hst]
        split <;> rfl
      · rw [← ho]
        simp [hwu1]
      · rw [← ho]
        simp [h2]
  · intro f tts a b ab bs out h hnd
    have h2 : ((epInit tts a b ab).wu.bottom_memory.filter neNil).Nodup := by
      rw [show (epInit tts a b ab).wu.bottom_memory = List.replicate 31 [] from rfl,
        filter_replicate_nil]
      exact List.nodup_nil
    have h4 : ∀ x ∈ (epInit tts a b ab).wu.bottom_memory.filter neNil,
        x ∈ bs.map Prod.fst → False := by
      intro x hx
      rw [show (epInit tts a b ab).wu.bottom_memory = List.replicate 31 [] from rfl,
        filter_replicate_nil] at hx
      simp at hx
    obtain ⟨hN, _⟩ := runEP_drains_nodup bs (epInit tts a b ab) out h h2 hnd h4
    exact (List.nodup_append.mp hN).1

/-- C7 witness: a concrete onset after one backed-up silent block: the
drain writes the 30 empty slots and the backed-up block then the loud
trigger, clears the memory; and a concrete 3-block distinct run has
duplicate-free drains. -/
theorem c7_init_drain_witness :
    c7st.wu.Check lb1 1 = ("init", (c7st.wu.Check lb1 1).2)
    ∧ epStep fmt4 c7st (lb1, 1) = some (c7step.1, c7step.2)
    ∧ c7step.1.seg.writes
        = c7st.seg.writes
          ++ (c7st.wu.Check lb1 1).2.bottom_memory.map (fun ss => (ss, ss.length))
          ++ [(lb1, 1)]
    ∧ c7step.1.wu.bottom_memory = List.replicate 31 []
    ∧ runEP fmt4 (epInit 5 (mkRat 1 50) (mkRat 1 20) false) c7bs = some c7out
    ∧ (c7bs.map Prod.fst).Nodup
    ∧ (drains c7out.2).Nodup := by
  have hres : c7st.wu.Check lb1 1 = ("init", (c7st.wu.Check lb1 1).2) := by decide
  have hstep : epStep fmt4 c7st (lb1, 1) = some (c7step.1, c7step.2) := by decide
  have hrun : runEP fmt4 (epInit 5 (mkRat 1 50) (mkRat 1 20) false) c7bs = some c7out := by
    decide
  have hnd : (c7bs.map Prod.fst).Nodup := by decide
  obtain ⟨hw, hmem, _, _⟩ :=
    c7_init_drain.1 fmt4 c7st (lb1, 1) c7step.1 c7step.2 _ hres hstep
  exact ⟨hres, hstep, hw, hmem, hrun, hnd,
    c7_init_drain.2 fmt4 5 (mkRat 1 50) (mkRat 1 20) false c7bs c7out hrun hnd⟩

lemma foldl_fixed {α β : Type} (g : α → β → α) (x : β) (c : α) (h : g c x = c) :
    ∀ n : ℕ, List.foldl g c (List.replicate n x) = c := by
  intro n
  induction n with
  | zero => simp
  | succ m ih => rw [List.replicate_succ, List.foldl_cons, h]; exact ih

lemma getMax_sBlk4 : GetMaxValSample sBlk4 = 0 :=
  foldl_fixed _ _ _ (by decide) 512

lemma getMax_lBlk4 : GetMaxValSample lBlk4 = mkRat 1 2 := by
  unfold GetMaxValSample lBlk4
  rw [show (512:ℕ) = 511 + 1 from rfl, List.replicate_succ, List.foldl_cons]
  have h0 : (if mabs (mkRat 1 2, (0:ℚ)).1 > (0:ℚ) then (mkRat 1 2, (0:ℚ)).1 else (0:ℚ))
      = mkRat 1 2 := by decide
  rw [h0]
  exact foldl_fixed _ _ _ (by decide) 511

lemma isSilent_s20 : IsSilent sBlk4 (mkRat 1 20) false false = true := by
  rw [IsSilent, getMax_sBlk4]
  decide

lemma isSilent_s50 : IsSilent sBlk4 (mkRat 1 50) false false = true := by
  rw [IsSilent, getMax_sBlk4]
  decide

lemma isSilent_l20 : IsSilent lBlk4 (mkRat 1 20) false false = false := by
  rw [IsSilent, getMax_lBlk4]
  decide

lemma isSilent_l50 : IsSilent lBlk4 (mkRat 1 50) false false = false := by
  rw [IsSilent, getMax_lBlk4]
  decide

lemma sBlk4_length : sBlk4.length = 512 := by
  simp only [sBlk4, List.length_replicate]

lemma lBlk4_length : lBlk4.length = 512 := by
  simp only [lBlk4, List.length_replicate]

lemma flatMap_pcm_length (f : Format) (l : Block) :
    (l.flatMap f.pcmFrame).length = l.length * f.width := by
  induction l with
  | nil => simp
  | cons x t ih => simp [List.flatMap_cons, Format.pcmFrame, ih]; ring

lemma ws_block (w : ℕ) (blk : Block) (hlen : blk.length = 512) :
    WriteSamples fmt4 w blk 512
      = some (true, w + 1024, blk.flatMap fmt4.pcmFrame) := by
  have hp : fmt4.precision = 1 ∨ fmt4.precision = 2 ∨ fmt4.precision = 3 := by decide
  have htake : blk.take 512 = blk := by
    rw [← hlen]; exact List.take_length blk
  simp only [WriteSamples, hlen]
  rw [if_pos hp, if_pos (by omega : (512:ℕ) ≤ 512 ∧ (512:ℕ) ≤ 512)]
  rw [htake, flatMap_pcm_length, hlen]
  norm_num [fmt4, Format.width]
  decide

lemma writeFold_cons (f : Format) (s : Block) (n : ℕ) (r : List (Block × ℕ)) (w : ℕ) :
    writeFold f ((s, n) :: r) w
      = match WriteSamples f w s n with
        | none => none
        | some (_, tw1, _) => writeFold f r tw1 := rfl

lemma writeFold_srep (k : ℕ) :
    ∀ w : ℕ, writeFold fmt4 (List.replicate k (sBlk4, 512)) w = some (w + k * 1024) := by
  induction k with
  | zero => intro w; simp [writeFold]
  | succ m ih =>
    intro w
    rw [List.replicate_succ, writeFold_cons, ws_block w sBlk4 sBlk4_length]
    rw [show (match (some (true, w + 1024, sBlk4.flatMap fmt4.pcmFrame) :
        Option (Bool × ℕ × List ℕ)) with
      | none => none
      | some (_, tw1, _) => writeFold fmt4 (List.replicate m (sBlk4, 512)) tw1)
        = writeFold fmt4 (List.replicate m (sBlk4, 512)) (w + 1024) from rfl]
    rw [ih (w + 1024)]
    congr 1
    ring

lemma writeFold_append (f : Format) (xs ys : List (Block × ℕ)) :
    ∀ w : ℕ, writeFold f (xs ++ ys) w
      = match writeFold f xs w with
        | none => none
        | some w1 => writeFold f ys w1 := by
  induction xs with
  | nil => intro w; simp [writeFold]
  | cons p r ih =>
    intro w
    rcases p with ⟨s, n⟩
    rw [List.cons_append, writeFold_cons, writeFold_cons]
    rcases hws : WriteSamples f w s n with _ | ⟨ok, w1, bs⟩
    · simp
    · simp only []
      exact ih w1

lemma writeFold_initdrain (w : ℕ) :
    writeFold fmt4 ((List.replicate 31 sBlk4).map (fun ss => (ss, ss.length))
      ++ [(lBlk4, 512)]) w = some (w + 32768) := by
  rw [List.map_replicate, sBlk4_length, writeFold_append, writeFold_srep 31 w]
  rw [show (match (some (w + 31 * 1024) : Option ℕ) with
      | none => none
      | some w1 => writeFold fmt4 [(lBlk4, 512)] w1)
      = writeFold fmt4 [(lBlk4, 512)] (w + 31 * 1024) from rfl]
  rw [writeFold_cons, ws_block _ lBlk4 lBlk4_length]
  rw [show (match (some (true, w + 31 * 1024 + 1024, lBlk4.flatMap fmt4.pcmFrame) :
      Option (Bool × ℕ × List ℕ)) with
    | none => none
    | some (_, tw1, _) => writeFold fmt4 [] tw1)
      = writeFold fmt4 ([] : List (Block × ℕ)) (w + 31 * 1024 + 1024) from rfl]
  rw [show writeFold fmt4 ([] : List (Block × ℕ)) (w + 31 * 1024 + 1024)
      = some (w + 31 * 1024 + 1024) from rfl]

lemma runEP_cons_step {f : Format} {st st1 : EPState} {inp : Block × ℕ} {o : StepOut}
    {rest : List (Block × ℕ)} (hst : epStep f st inp = some (st1, o)) :
    runEP f st (inp :: rest) = (runEP f st1 rest).map (fun p => (p.1, o :: p.2)) := by
  simp only [runEP, hst]
  rcases h2 : runEP f st1 rest with _ | ⟨a, b⟩ <;> simp

set_option maxHeartbeats 2000000 in
lemma epStep_idle {f : Format} {st : EPState} {b : Block} {n : ℕ}
    (h1 : st.wu.record_mode = false)
    (h2 : IsSilent b st.wu.threshold false false = true) :
    epStep f st (b, n) = some ({ st with wu := st.wu.BackupSamples b n }, ⟨"", []⟩) := by
  have hc : st.wu.Check b n = ("", st.wu.BackupSamples b n) := Check_idle_silent h1 h2
  have hne1 : ¬(st.wu.Check b n).1 = "complete" := by rw [hc]; simp
  have hne2 : ¬(st.wu.Check b n).1 = "init" := by rw [hc]; simp
  have hne3 : ¬(st.wu.Check b n).1 = "drop" := by rw [hc]; simp
  have hne4 : ¬(st.wu.Check b n).1 = "continue" := by rw [hc]; simp
  simp [epStep, hne1, hne2, hne3, hne4, hc]

lemma runEP_idle_replicate {f : Format} (k : ℕ) :
    ∀ (st : EPState) (b : Block) (n : ℕ) (rest : List (Block × ℕ)),
      st.wu.record_mode = false →
      IsSilent b st.wu.threshold false false = true →
      runEP f st (List.replicate k (b, n) ++ rest)
        = (runEP f (idleIter k st b n) rest).map
            (fun p => (p.1, List.replicate k (⟨"", []⟩ : StepOut) ++ p.2)) := by
  induction k with
  | zero =>
    intro st b n rest h1 h2
    show runEP f st rest
      = (runEP f st rest).map (fun p => (p.1, List.replicate 0 (⟨"", []⟩ : StepOut) ++ p.2))
    rcases h : runEP f st rest with _ | ⟨a, os⟩ <;> simp
  | succ m ih =>
    intro st b n rest h1 h2
    rw [List.replicate_succ, List.cons_append, runEP_cons_step (epStep_idle h1 h2)]
    rw [ih { st with wu := st.wu.BackupSamples b n } b n rest h1 h2]
    rw [show idleIter (m + 1) st b n
        = idleIter m { st with wu := st.wu.BackupSamples b n } b n from rfl]
    rcases h : runEP f (idleIter m { st with wu := st.wu.BackupSamples b n } b n) rest
      with _ | ⟨a, os⟩ <;> simp [List.replicate_succ]

lemma epStep_recsil {st : EPState}
    (h1 : st.wu.record_mode = true)
    (h2 : IsSilent sBlk4 st.wu.threshold false false = true)
    (h3 : ¬st.wu.back_to_silence > st.wu.tts)
    (hab : st.wu.autobalance = false) :
    epStep fmt4 st (sBlk4, 512) = some
      ({ st with
          wu := { st.wu with back_to_silence := st.wu.back_to_silence + 1 },
          seg := ⟨st.seg.writes ++ [(sBlk4, 512)], st.seg.twritten + 1024⟩ },
        ⟨"continue", []⟩) := by
  have hc : st.wu.Check sBlk4 512
      = ("continue", { st.wu with back_to_silence := st.wu.back_to_silence + 1 }) :=
    Check_rec_silent_cont h1 h2 h3
  have h4 : (st.wu.Check sBlk4 512).1 = "continue" := by rw [hc]
  have hne1 : ¬(st.wu.Check sBlk4 512).1 = "complete" := by rw [hc]; simp
  have hne2 : ¬(st.wu.Check sBlk4 512).1 = "init" := by rw [hc]; simp
  have hne3 : ¬(st.wu.Check sBlk4 512).1 = "drop" := by rw [hc]; simp
  simp [epStep, hne1, hne2, hne3, h4, hc, hab,
    ws_block st.seg.twritten sBlk4 sBlk4_length]

lemma runEP_recsil_replicate (k : ℕ) :
    ∀ (st : EPState) (rest : List (Block × ℕ)),
      st.wu.record_mode = true →
      IsSilent sBlk4 st.wu.threshold false false = true →
      st.wu.back_to_silence + k ≤ st.wu.tts + 1 →
      st.wu.autobalance = false →
      runEP fmt4 st (List.replicate k (sBlk4, 512) ++ rest)
        = (runEP fmt4 (recSilIter k st) rest).map
            (fun p => (p.1, List.replicate k (⟨"continue", []⟩ : StepOut) ++ p.2)) := by
  induction k with
  | zero =>
    intro st rest h1 h2 h3 hab
    show runEP fmt4 st rest
      = (runEP fmt4 st rest).map
          (fun p => (p.1, List.replicate 0 (⟨"continue", []⟩ : StepOut) ++ p.2))
    rcases h : runEP fmt4 st rest with _ | ⟨a, os⟩ <;> simp
  | succ m ih =>
    intro st rest h1 h2 h3 hab
    have hb : ¬st.wu.back_to_silence > st.wu.tts := by omega
    rw [List.replicate_succ, List.cons_append,
      runEP_cons_step (epStep_recsil h1 h2 hb hab)]
    rw [ih { st with
          wu := { st.wu with back_to_silence := st.wu.back_to_silence + 1 },
          seg := ⟨st.seg.writes ++ [(sBlk4, 512)], st.seg.twritten + 1024⟩ }
        rest h1 h2
        (show st.wu.back_to_silence + 1 + (m : ℤ) ≤ st.wu.tts + 1 by
          push_cast at h3
          omega)
        hab]
    rw [show recSilIter (m + 1) st
        = recSilIter m
            { st with
                wu := { st.wu with back_to_silence := st.wu.back_to_silence + 1 },
                seg := ⟨st.seg.writes ++ [(sBlk4, 512)], st.seg.twritten + 1024⟩ } from rfl]
    rcases h : runEP fmt4 (recSilIter m
        { st with
            wu := { st.wu with back_to_silence := st.wu.back_to_silence + 1 },
            seg := ⟨st.seg.writes ++ [(sBlk4, 512)], st.seg.twritten + 1024⟩ }) rest
      with _ | ⟨a, os⟩ <;> simp [List.replicate_succ]

lemma epStep_initstep (st : EPState)
    (h1 : st.wu.record_mode = false)
    (h2 : IsSilent lBlk4 st.wu.threshold false false = false)
    (hmem : st.wu.bottom_memory = List.replicate 31 sBlk4)
    (hab : st.wu.autobalance = false) :
    epStep fmt4 st (lBlk4, 512) = some
      ({ st with
          wu := { st.wu with
                    record_mode := true
                    threshold := st.wu.th_on
                    bottom_memory := List.replicate 31 [] },
          seg := ⟨st.seg.writes ++ (List.replicate 31 (sBlk4, 512) ++ [(lBlk4, 512)]),
                  st.seg.twritten + 32768⟩ },
        ⟨"init", List.replicate 31 sBlk4⟩) := by
  have hc : st.wu.Check lBlk4 512
      = ("init", { st.wu with record_mode := true, threshold := st.wu.th_on }) :=
    Check_idle_loud h1 h2
  have h4 : (st.wu.Check lBlk4 512).1 = "init" := by rw [hc]
  have hwf : writeFold fmt4
      ((st.wu.Check lBlk4 512).2.bottom_memory.map (fun ss => (ss, ss.length))
        ++ [(lBlk4, 512)]) st.seg.twritten = some (st.seg.twritten + 32768) := by
    simp only [hc]
    rw [show ({ st.wu with record_mode := true, threshold := st.wu.th_on } : WakeUp).bottom_memory = st.wu.bottom_memory from rfl]
    rw [hmem]
    exact writeFold_initdrain st.seg.twritten
  refine (@epStep_eq_init fmt4 st (lBlk4, 512) (st.seg.twritten + 32768) h4 hwf).trans ?_
  simp [hc, hmem, hab, sBlk4_length]

lemma epStep_recloud (st : EPState)
    (h1 : st.wu.record_mode = true)
    (h2 : IsSilent lBlk4 st.wu.threshold false false = false)
    (hab : st.wu.autobalance = false) :
    epStep fmt4 st (lBlk4, 512) = some
      ({ st with
          wu := { st.wu with back_to_silence := 0, fake_break := st.wu.fake_break + 1 },
          seg := ⟨st.seg.writes ++ [(lBlk4, 512)], st.seg.twritten + 1024⟩ },
        ⟨"continue", []⟩) := by
  have hc : st.wu.Check lBlk4 512
      = ("continue",
         { st.wu with back_to_silence := 0, fake_break := st.wu.fake_break + 1 }) :=
    Check_rec_nonsilent h1 h2
  have h4 : (st.wu.Check lBlk4 512).1 = "continue" := by rw [hc]
  refine (@epStep_eq_continue fmt4 st (lBlk4, 512) true (st.seg.twritten + 1024)
    (lBlk4.flatMap fmt4.pcmFrame) h4 (ws_block st.seg.twritten lBlk4 lBlk4_length)).trans ?_
  simp [hc, hab]

lemma epStep_complete_s (st : EPState)
    (h1 : st.wu.record_mode = true)
    (h2 : IsSilent sBlk4 st.wu.threshold false false = true)
    (h3 : st.wu.back_to_silence > st.wu.tts)
    (h4 : ¬st.wu.fake_break < st.wu.fake_break_limit)
    (hab : st.wu.autobalance = false) :
    epStep fmt4 st (sBlk4, 512) = some
      ({ wu := { st.wu with
                   record_mode := false
                   back_to_silence := 0
                   threshold := st.wu.th_off },
         seg := ⟨[], 0⟩,
         published := st.published
           ++ [⟨st.seg.writes ++ [(sBlk4, 512)], st.seg.twritten + 1024⟩] },
        ⟨"complete", []⟩) := by
  have hc : st.wu.Check sBlk4 512
      = ("complete",
         { st.wu with record_mode := false, back_to_silence := 0, threshold := st.wu.th_off }) :=
    Check_rec_silent_complete h1 h2 h3 h4
  have h5 : (st.wu.Check sBlk4 512).1 = "complete" := by rw [hc]
  refine (@epStep_eq_complete fmt4 st (sBlk4, 512) true (st.seg.twritten + 1024)
    (sBlk4.flatMap fmt4.pcmFrame) h5 (ws_block st.seg.twritten sBlk4 sBlk4_length)).trans ?_
  simp [hc, hab]

lemma scenario4_run :
    (runEP fmt4 (epInit 5 (mkRat 1 50) (mkRat 1 20) false) scenario4).map
        (fun p => p.1.published)
      = some [⟨expected4, 41984⟩] := by
  have e1 : runEP fmt4 (epInit 5 (mkRat 1 50) (mkRat 1 20) false) scenario4
      = (runEP fmt4
          (⟨{ InitWakeUp 5 (mkRat 1 50) (mkRat 1 20) false with
                bottom_memory := List.replicate 31 sBlk4 }, ⟨[], 0⟩, []⟩ : EPState)
          ((lBlk4, 512) :: (lBlk4, 512) :: (lBlk4, 512)
            :: (List.replicate 6 (sBlk4, 512)
                ++ ((sBlk4, 512) :: List.replicate 3 (sBlk4, 512))))).map
          (fun p => (p.1, List.replicate 40 (⟨"", []⟩ : StepOut) ++ p.2)) :=
    runEP_idle_replicate 40 _ sBlk4 512 _ rfl isSilent_s20
  have e2 : runEP fmt4
      (⟨{ InitWakeUp 5 (mkRat 1 50) (mkRat 1 20) false with
            bottom_memory := List.replicate 31 sBlk4 }, ⟨[], 0⟩, []⟩ : EPState)
      ((lBlk4, 512) :: (lBlk4, 512) :: (lBlk4, 512)
        :: (List.replicate 6 (sBlk4, 512)
            ++ ((sBlk4, 512) :: List.replicate 3 (sBlk4, 512))))
      = (runEP fmt4
          (⟨{ InitWakeUp 5 (mkRat 1 50) (mkRat 1 20) false with
                record_mode := true
                threshold := mkRat 1 50
                bottom_memory := List.replicate 31 [] },
             ⟨List.replicate 31 (sBlk4, 512) ++ [(lBlk4, 512)], 32768⟩, []⟩ : EPState)
          ((lBlk4, 512) :: (lBlk4, 512)
            :: (List.replicate 6 (sBlk4, 512)
                ++ ((sBlk4, 512) :: List.replicate 3 (sBlk4, 512))))).map
          (fun p => (p.1, (⟨"init", List.replicate 31 sBlk4⟩ : StepOut) :: p.2)) :=
    runEP_cons_step (epStep_initstep _ rfl isSilent_l20 rfl rfl)
  have e3 : runEP fmt4
      (⟨{ InitWakeUp 5 (mkRat 1 50) (mkRat 1 20) false with
            record_mode := true
            threshold := mkRat 1 50
            bottom_memory := List.replicate 31 [] },
         ⟨List.replicate 31 (sBlk4, 512) ++ [(lBlk4, 512)], 32768⟩, []⟩ : EPState)
      ((lBlk4, 512) :: (lBlk4, 512)
        :: (List.replicate 6 (sBlk4, 512)
            ++ ((sBlk4, 512) :: List.replicate 3 (sBlk4, 512))))
      = (runEP fmt4
          (⟨{ InitWakeUp 5 (mkRat 1 50) (mkRat 1 20) false with
                record_mode := true
                threshold := mkRat 1 50
                bottom_memory := List.replicate 31 []
                fake_break := 1 },
             ⟨List.replicate 31 (sBlk4, 512) ++ List.replicate 2 (lBlk4, 512), 33792⟩,
             []⟩ : EPState)
          ((lBlk4, 512)
            :: (List.replicate 6 (sBlk4, 512)
                ++ ((sBlk4, 512) :: List.replicate 3 (sBlk4, 512))))).map
          (fun p => (p.1, (⟨"continue", []⟩ : StepOut) :: p.2)) :=
    runEP_cons_step (epStep_recloud _ rfl isSilent_l50 rfl)
  have e4 : runEP fmt4
      (⟨{ InitWakeUp 5 (mkRat 1 50) (mkRat 1 20) false with
            record_mode := true
            threshold := mkRat 1 50
            bottom_memory := List.replicate 31 []
            fake_break := 1 },
         ⟨List.replicate 31 (sBlk4, 512) ++ List.replicate 2 (lBlk4, 512), 33792⟩,
         []⟩ : EPState)
      ((lBlk4, 512)
        :: (List.replicate 6 (sBlk4, 512)
            ++ ((sBlk4, 512) :: List.replicate 3 (sBlk4, 512))))
      = (runEP fmt4
          (⟨{ InitWakeUp 5 (mkRat 1 50) (mkRat 1 20) false with
                record_mode := true
                threshold := mkRat 1 50
                bottom_memory := List.replicate 31 []
                fake_break := 2 },
             ⟨List.replicate 31 (sBlk4, 512) ++ List.replicate 3 (lBlk4, 512), 34816⟩,
             []⟩ : EPState)
          (List.replicate 6 (sBlk4, 512)
            ++ ((sBlk4, 512) :: List.replicate 3 (sBlk4, 512)))).map
          (fun p => (p.1, (⟨"continue", []⟩ : StepOut) :: p.2)) :=
    runEP_cons_step (epStep_recloud _ rfl isSilent_l50 rfl)
  have e5 : runEP fmt4
      (⟨{ InitWakeUp 5 (mkRat 1 50) (mkRat 1 20) false with
            record_mode := true
            threshold := mkRat 1 50
            bottom_memory := List.replicate 31 []
            fake_break := 2 },
         ⟨List.replicate 31 (sBlk4, 512) ++ List.replicate 3 (lBlk4, 512), 34816⟩,
         []⟩ : EPState)
      (List.replicate 6 (sBlk4, 512)
        ++ ((sBlk4, 512) :: List.replicate 3 (sBlk4, 512)))
      = (runEP fmt4
          (⟨{ InitWakeUp 5 (mkRat 1 50) (mkRat 1 20) false with
                record_mode := true
                threshold := mkRat 1 50
                bottom_memory := List.replicate 31 []
                fake_break := 2
                back_to_silence := 6 },
             ⟨List.replicate 31 (sBlk4, 512) ++ List.replicate 3 (lBlk4, 512)
                ++ List.replicate 6 (sBlk4, 512), 40960⟩, []⟩ : EPState)
          ((sBlk4, 512) :: List.replicate 3 (sBlk4, 512))).map
          (fun p => (p.1, List.replicate 6 (⟨"continue", []⟩ : StepOut) ++ p.2)) :=
    runEP_recsil_replicate 6 _ _ rfl isSilent_s50 (by decide) rfl
  have e6 : runEP fmt4
      (⟨{ InitWakeUp 5 (mkRat 1 50) (mkRat 1 20) false with
            record_mode := true
            threshold := mkRat 1 50
            bottom_memory := List.replicate 31 []
            fake_break := 2
            back_to_silence := 6 },
         ⟨List.replicate 31 (sBlk4, 512) ++ List.replicate 3 (lBlk4, 512)
            ++ List.replicate 6 (sBlk4, 512), 40960⟩, []⟩ : EPState)
      ((sBlk4, 512) :: List.replicate 3 (sBlk4, 512))
      = (runEP fmt4
          (⟨{ InitWakeUp 5 (mkRat 1 50) (mkRat 1 20) false with
                threshold := mkRat 1 20
                bottom_memory := List.replicate 31 []
                fake_break := 2 },
             ⟨[], 0⟩, [⟨expected4, 41984⟩]⟩ : EPState)
          (List.replicate 3 (sBlk4, 512))).map
          (fun p => (p.1, (⟨"complete", []⟩ : StepOut) :: p.2)) :=
    runEP_cons_step (epStep_complete_s _ rfl isSilent_s50 (by decide) (by decide) rfl)
  have e7 : runEP fmt4
      (⟨{ InitWakeUp 5 (mkRat 1 50) (mkRat 1 20) false with
            threshold := mkRat 1 20
            bottom_memory := List.replicate 31 []
            fake_break := 2 },
         ⟨[], 0⟩, [⟨expected4, 41984⟩]⟩ : EPState)
      (List.replicate 3 (sBlk4, 512))
      = (runEP fmt4
          (idleIter 3
            (⟨{ InitWakeUp 5 (mkRat 1 50) (mkRat 1 20) false with
                  threshold := mkRat 1 20
                  bottom_memory := List.replicate 31 []
                  fake_break := 2 },
               ⟨[], 0⟩, [⟨expected4, 41984⟩]⟩ : EPState) sBlk4 512)
          []).map
          (fun p => (p.1, List.replicate 3 (⟨"", []⟩ : StepOut) ++ p.2)) :=
    runEP_idle_replicate 3 _ sBlk4 512 [] rfl isSilent_s20
  rw [e1, e2, e3, e4, e5, e6, e7]
  rfl

/-- C4 (amended).  Under the §8 configuration, feeding 40 silent, 3 loud
and 10 silent 512-frame blocks produces exactly one published buffer.
Its payload is the 31-block pre-roll (the last 31 of the 40 leading
silent blocks, oldest first), the 3 loud blocks, and the first *7* (not
6) trailing silent blocks: the timeout is exceeded on the 7th trailing
silent block, and the `"complete"` branch appends that very block before
finalizing, so data-size = 41 blocks × 512 frames × 2 bytes = 41984. -/
theorem c4_scenario_amended :
    (runEP fmt4 (epInit 5 (mkRat 1 50) (mkRat 1 20) false) scenario4).map
        (fun p => p.1.published)
      = some [⟨expected4, 41984⟩] :=
  scenario4_run

/-- C4 counterexample: the single published buffer of the §8 scenario has
data-size 41984 = 41 × 512 × 2 bytes (41 blocks), not the claimed
40 × 512 × 2 = 40960 (31 + 3 + 6 = 40 blocks). -/
theorem c4_scenario_counterexample :
    (runEP fmt4 (epInit 5 (mkRat 1 50) (mkRat 1 20) false) scenario4).map
        (fun p => p.1.published.map Segment.twritten)
      = some [41984]
    ∧ expected4.length = 41
    ∧ (41984 : ℕ) ≠ 40 * 512 * 2 := by
  refine ⟨?_, ?_, by decide⟩
  · rcases Option.map_eq_some'.mp scenario4_run with ⟨out, hout, hpub⟩
    rw [hout]
    show some (out.1.published.map Segment.twritten) = some [41984]
    rw [hpub]
    rfl
  · decide

end Beep
